import Mathlib

/-!
Verification of the vector-elevation-model tile pipeline.

The developments below shallowly embed the TypeScript sources into Lean:
JavaScript numbers are modelled as exact rationals (`ℚ`) for the discrete
geometry pipeline (contour tracing, clipping, smoothing, elevation codec,
level generation) and as real numbers (`ℝ`) for the trigonometric hillshade
kernel.  Arrays become `List`s, mutable objects become explicit state
records, and the JS `Map` objects keyed by quantized-coordinate strings
become functions from integer key pairs to lists of chain indices.
-/

-- The core rational operations are `@[irreducible]` in this toolchain, which
-- prevents kernel evaluation of concrete rational arithmetic.  Restoring the
-- default reducibility lets `decide` evaluate the embedded programs.
set_option allowUnsafeReducibility true in
attribute [semireducible] Rat.add Rat.mul Rat.div Rat.sub Rat.neg Rat.inv Rat.blt
  Rat.ofScientific

namespace VEM

/-- A 2-D point, as in `type Coordinate = [number, number]` of `contour.ts`. -/
abbrev Coordinate : Type := ℚ × ℚ

/-- Row-major numeric grid from `grid.ts` (`interface Grid`). -/
structure Grid where
  data : List ℚ
  width : ℕ
  height : ℕ
deriving Repr

/-- `createGrid` from `grid.ts`, minus the throw paths (its validation errors
are irrelevant to the traced claims; callers below use valid dimensions). -/
def createGrid (data : List ℚ) (width height : ℕ) : Grid :=
  { data := data, width := width, height := height }

/-- `gridGetAt` from `grid.ts`: unchecked linear indexing (reads past the end
of a JS array only occur on invalid grids; `getD` with default 0 stands in). -/
def gridGetAt (g : Grid) (index : ℕ) : ℚ :=
  g.data.getD index 0

/-- `gridGet` from `grid.ts`: clamped 2-D access. -/
def gridGet (g : Grid) (x y : ℤ) : ℚ :=
  let clampedX : ℤ := max 0 (min ((g.width : ℤ) - 1) x)
  let clampedY : ℤ := max 0 (min ((g.height : ℤ) - 1) y)
  g.data.getD (clampedY * (g.width : ℤ) + clampedX).toNat 0

/-- `EPSILON = 1e-10` from `contour.ts`. -/
def EPSILON : ℚ := 1 / 10 ^ 10

/-- `interpolate` from `contour.ts`: midpoint of an edge crossing, with the
degenerate-edge guard and the `[ε, 1−ε]` clamp. -/
def interpolate (g : Grid) (level : ℚ) (x1 y1 x2 y2 : ℕ) : Coordinate :=
  let v1 := gridGetAt g (y1 * g.width + x1)
  let v2 := gridGetAt g (y2 * g.width + x2)
  let t0 : ℚ := if |v2 - v1| < EPSILON then 1 / 2 else (level - v1) / (v2 - v1)
  let t : ℚ := max EPSILON (min (1 - EPSILON) t0)
  ((x1 : ℚ) + t * ((x2 : ℚ) - (x1 : ℚ)), (y1 : ℚ) + t * ((y2 : ℚ) - (y1 : ℚ)))

/-- `processCellMarching` from `contour.ts`: the 16-case Marching Squares
lookup, including the polygon-mode boundary segments.  List concatenation
follows the order of the `segments.push` calls in the source. -/
def processCellMarching (g : Grid) (level : ℚ) (x y : ℕ) (forPolygons : Bool) :
    List (List Coordinate) :=
  let atTop := forPolygons && decide (y = g.height - 2)
  let atRight := forPolygons && decide (x = g.width - 2)
  let atBottom := forPolygons && decide (y = 0)
  let atLeft := forPolygons && decide (x = 0)
  let tl : Coordinate := ((x : ℚ), (y : ℚ) + 1)
  let tr : Coordinate := ((x : ℚ) + 1, (y : ℚ) + 1)
  let br : Coordinate := ((x : ℚ) + 1, (y : ℚ))
  let bl : Coordinate := ((x : ℚ), (y : ℚ))
  let tm := interpolate g level x (y + 1) (x + 1) (y + 1)
  let rm := interpolate g level (x + 1) y (x + 1) (y + 1)
  let bm := interpolate g level x y (x + 1) y
  let lm := interpolate g level x y x (y + 1)
  let tlv := gridGetAt g (y * g.width + x)
  let trv := gridGetAt g (y * g.width + (x + 1))
  let brv := gridGetAt g ((y + 1) * g.width + (x + 1))
  let blv := gridGetAt g ((y + 1) * g.width + x)
  let caseIndex : ℕ :=
    (if level ≤ tlv then 1 else 0) + (if level ≤ trv then 2 else 0) +
    (if level ≤ brv then 4 else 0) + (if level ≤ blv then 8 else 0)
  match caseIndex with
  | 1 => [[lm, bm]] ++ (if atBottom then [[bm, bl]] else [])
      ++ (if atLeft then [[bl, lm]] else [])
  | 2 => [[bm, rm]] ++ (if atRight then [[rm, br]] else [])
      ++ (if atBottom then [[br, bm]] else [])
  | 3 => [[lm, rm]] ++ (if atRight then [[rm, br]] else [])
      ++ (if atBottom then [[br, bl]] else []) ++ (if atLeft then [[bl, lm]] else [])
  | 4 => [[rm, tm]] ++ (if atTop then [[tm, tr]] else [])
      ++ (if atRight then [[tr, rm]] else [])
  | 5 => [[lm, tm]] ++ (if atTop then [[tm, tr]] else [])
      ++ (if atRight then [[tr, rm]] else []) ++ [[rm, bm]]
      ++ (if atBottom then [[bm, bl]] else []) ++ (if atLeft then [[bl, lm]] else [])
  | 6 => [[bm, tm]] ++ (if atTop then [[tm, tr]] else [])
      ++ (if atRight then [[tr, br]] else []) ++ (if atBottom then [[br, bm]] else [])
  | 7 => [[lm, tm]] ++ (if atTop then [[tm, tr]] else [])
      ++ (if atRight then [[tr, br]] else []) ++ (if atBottom then [[br, bl]] else [])
      ++ (if atLeft then [[bl, lm]] else [])
  | 8 => [[tm, lm]] ++ (if atLeft then [[lm, tl]] else [])
      ++ (if atTop then [[tl, tm]] else [])
  | 9 => [[tm, bm]] ++ (if atBottom then [[bm, bl]] else [])
      ++ (if atLeft then [[bl, tl]] else []) ++ (if atTop then [[tl, tm]] else [])
  | 10 => [[bm, lm]] ++ (if atLeft then [[lm, tl]] else [])
      ++ (if atTop then [[tl, tm]] else []) ++ [[tm, rm]]
      ++ (if atRight then [[rm, br]] else []) ++ (if atBottom then [[br, bm]] else [])
  | 11 => [[tm, rm]] ++ (if atRight then [[rm, br]] else [])
      ++ (if atBottom then [[br, bl]] else []) ++ (if atLeft then [[bl, tl]] else [])
      ++ (if atTop then [[tl, tm]] else [])
  | 12 => [[rm, lm]] ++ (if atLeft then [[lm, tl]] else [])
      ++ (if atTop then [[tl, tr]] else []) ++ (if atRight then [[tr, rm]] else [])
  | 13 => [[rm, bm]] ++ (if atBottom then [[bm, bl]] else [])
      ++ (if atLeft then [[bl, tl]] else []) ++ (if atTop then [[tl, tr]] else [])
      ++ (if atRight then [[tr, rm]] else [])
  | 14 => [[bm, lm]] ++ (if atLeft then [[lm, tl]] else [])
      ++ (if atTop then [[tl, tr]] else []) ++ (if atRight then [[tr, br]] else [])
      ++ (if atBottom then [[br, bm]] else [])
  | 15 => (if atTop then [[tl, tr]] else []) ++ (if atRight then [[tr, br]] else [])
      ++ (if atBottom then [[br, bl]] else []) ++ (if atLeft then [[bl, tl]] else [])
  | _ => []

/-- `collectSegments` from `contour.ts`: scan all cells, y outer, x inner. -/
def collectSegments (g : Grid) (level : ℚ) (forPolygons : Bool) :
    List (List Coordinate) :=
  (List.range (g.height - 1)).flatMap fun y =>
    (List.range (g.width - 1)).flatMap fun x =>
      processCellMarching g level x y forPolygons

/-- JavaScript `Math.round`: round half toward positive infinity. -/
def jsRound (q : ℚ) : ℤ := Rat.floor (q + 1 / 2)

/-- `coordKey` from `contour.ts`: quantization of a coordinate to a hash key;
the pair of rounded integers stands for the string `x,y`. -/
def coordKey (c : Coordinate) : ℤ × ℤ :=
  (jsRound (c.1 * 1000000), jsRound (c.2 * 1000000))

/-- `interface Chain` from `contour.ts`. -/
structure Chain where
  coords : List Coordinate
  startKey : ℤ × ℤ
  endKey : ℤ × ℤ
  merged : Bool
deriving Repr

instance : Inhabited Chain := ⟨⟨[], (0, 0), (0, 0), true⟩⟩

/-- The two `Map<string, Chain[]>` index maps, as functions from key to the
list of chain indices registered under that key. -/
abbrev KeyIndex := ℤ × ℤ → List ℕ

/-- `addToIndex` from `contour.ts` (push, or create a singleton entry). -/
def addToIndex (m : KeyIndex) (k : ℤ × ℤ) (i : ℕ) : KeyIndex :=
  fun k' => if k' = k then m k ++ [i] else m k'

/-- `removeFromIndex` from `contour.ts` (splice out the first occurrence). -/
def removeFromIndex (m : KeyIndex) (k : ℤ × ℤ) (i : ℕ) : KeyIndex :=
  fun k' => if k' = k then (m k).erase i else m k'

/-- The mutable state of `mergeSegments`: the chain array plus both indexes.
Chains are addressed by their position in the original array, which plays the
role of JS object identity. -/
structure MergeState where
  chains : List Chain
  byStart : KeyIndex
  byEnd : KeyIndex

def getChain (s : MergeState) (i : ℕ) : Chain := s.chains.getD i default

/-- A candidate scan inside `extendChain`: the first chain in the index list
that is neither the chain being extended nor already merged. -/
def findCandidate (s : MergeState) (i : ℕ) (cands : List ℕ) : Option ℕ :=
  cands.find? fun j => (j != i) && !(getChain s j).merged

/-- One iteration of the `while (changed)` loop of `extendChain`: the four
merge attempts in source order; `some` is a state after a merge (`changed`),
`none` means no attempt succeeded and the loop stops. -/
def extendChainStep (s : MergeState) (i : ℕ) : Option MergeState :=
  let ch := getChain s i
  match findCandidate s i (s.byStart ch.endKey) with
  | some j =>
    -- other.start matches chain.end: append other
    let other := getChain s j
    let byStart := removeFromIndex s.byStart other.startKey j
    let byEnd := removeFromIndex (removeFromIndex s.byEnd other.endKey j) ch.endKey i
    let newCh : Chain :=
      { ch with coords := ch.coords ++ other.coords.drop 1, endKey := other.endKey }
    let chains := (s.chains.set i newCh).set j { other with merged := true }
    some { chains := chains, byStart := byStart,
           byEnd := addToIndex byEnd newCh.endKey i }
  | none =>
  match findCandidate s i (s.byEnd ch.endKey) with
  | some j =>
    -- other.end matches chain.end: append reversed other
    let other := getChain s j
    let byStart := removeFromIndex s.byStart other.startKey j
    let byEnd := removeFromIndex (removeFromIndex s.byEnd other.endKey j) ch.endKey i
    let newCh : Chain :=
      { ch with coords := ch.coords ++ other.coords.dropLast.reverse,
                endKey := other.startKey }
    let chains := (s.chains.set i newCh).set j { other with merged := true }
    some { chains := chains, byStart := byStart,
           byEnd := addToIndex byEnd newCh.endKey i }
  | none =>
  match findCandidate s i (s.byEnd ch.startKey) with
  | some j =>
    -- other.end matches chain.start: prepend other
    let other := getChain s j
    let byStart0 := removeFromIndex s.byStart other.startKey j
    let byEnd := removeFromIndex s.byEnd other.endKey j
    let byStart := removeFromIndex byStart0 ch.startKey i
    let newCh : Chain :=
      { ch with coords := other.coords.dropLast ++ ch.coords,
                startKey := other.startKey }
    let chains := (s.chains.set i newCh).set j { other with merged := true }
    some { chains := chains, byStart := addToIndex byStart newCh.startKey i,
           byEnd := byEnd }
  | none =>
  match findCandidate s i (s.byStart ch.startKey) with
  | some j =>
    -- other.start matches chain.start: prepend reversed other
    let other := getChain s j
    let byStart0 := removeFromIndex s.byStart other.startKey j
    let byEnd := removeFromIndex s.byEnd other.endKey j
    let byStart := removeFromIndex byStart0 ch.startKey i
    let newCh : Chain :=
      { ch with coords := (other.coords.drop 1).reverse ++ ch.coords,
                startKey := other.endKey }
    let chains := (s.chains.set i newCh).set j { other with merged := true }
    some { chains := chains, byStart := addToIndex byStart newCh.startKey i,
           byEnd := byEnd }
  | none => none

/-- The `while (changed)` loop of `extendChain`, run on fuel.  Every
successful step marks one chain as merged, so the loop body can succeed at
most `chains.length` times; any fuel above that bound makes this function
agree with the unbounded JS loop. -/
def extendChainLoop : ℕ → MergeState → ℕ → MergeState
  | 0, s, _ => s
  | fuel + 1, s, i =>
    match extendChainStep s i with
    | none => s
    | some s' => extendChainLoop fuel s' i

/-- `mergeSegments` from `contour.ts`: chains initialized from the segments,
both indexes built, every not-yet-merged chain extended, survivors collected. -/
def mergeSegments (segments : List (List Coordinate)) : List (List Coordinate) :=
  if segments.isEmpty then [] else
  let chains : List Chain := segments.map fun seg =>
    { coords := seg, startKey := coordKey seg.headI, endKey := coordKey seg.getLastI,
      merged := false }
  let emptyIdx : KeyIndex := fun _ => []
  let byStart := (List.range chains.length).foldl
    (fun m i => addToIndex m (chains.getD i default).startKey i) emptyIdx
  let byEnd := (List.range chains.length).foldl
    (fun m i => addToIndex m (chains.getD i default).endKey i) emptyIdx
  let st0 : MergeState := { chains := chains, byStart := byStart, byEnd := byEnd }
  let st1 := (List.range chains.length).foldl
    (fun s i => if (getChain s i).merged then s else extendChainLoop (chains.length + 1) s i)
    st0
  (st1.chains.filter fun c => !c.merged).map (·.coords)

/-- A LineString feature with its `level` property, as built by `traceLines`. -/
structure LineFeature where
  coords : List Coordinate
  level : ℚ
deriving Repr, DecidableEq

/-- `traceLines` from `contour.ts` (the levels argument normalized to a list). -/
def traceLines (data : List ℚ) (width height : ℕ) (levels : List ℚ) :
    List LineFeature :=
  let grid := createGrid data width height
  levels.flatMap fun level =>
    (mergeSegments (collectSegments grid level false)).map fun coords =>
      { coords := coords, level := level }

/-- C1: on every 2x2 grid of 0/1 corner values with threshold 0.5, `traceLines`
emits exactly the Appendix A segments for the case index built from bits
TL=1, TR=2, BR=4, BL=8 (corner counted when its value is at least the level):
cases 0 and 15 produce no lines, cases 5 and 10 produce exactly the two listed
segments, which are disjoint, and every other case produces the single listed
segment between the interpolated edge midpoints. -/
theorem traceLines_marching_cases :
    traceLines [0, 0, 0, 0] 2 2 [1/2] = [] ∧
    traceLines [1, 0, 0, 0] 2 2 [1/2] = [⟨[(0, 1/2), (1/2, 0)], 1/2⟩] ∧
    traceLines [0, 1, 0, 0] 2 2 [1/2] = [⟨[(1/2, 0), (1, 1/2)], 1/2⟩] ∧
    traceLines [1, 1, 0, 0] 2 2 [1/2] = [⟨[(0, 1/2), (1, 1/2)], 1/2⟩] ∧
    traceLines [0, 0, 0, 1] 2 2 [1/2] = [⟨[(1, 1/2), (1/2, 1)], 1/2⟩] ∧
    traceLines [1, 0, 0, 1] 2 2 [1/2] =
      [⟨[(0, 1/2), (1/2, 1)], 1/2⟩, ⟨[(1, 1/2), (1/2, 0)], 1/2⟩] ∧
    traceLines [0, 1, 0, 1] 2 2 [1/2] = [⟨[(1/2, 0), (1/2, 1)], 1/2⟩] ∧
    traceLines [1, 1, 0, 1] 2 2 [1/2] = [⟨[(0, 1/2), (1/2, 1)], 1/2⟩] ∧
    traceLines [0, 0, 1, 0] 2 2 [1/2] = [⟨[(1/2, 1), (0, 1/2)], 1/2⟩] ∧
    traceLines [1, 0, 1, 0] 2 2 [1/2] = [⟨[(1/2, 1), (1/2, 0)], 1/2⟩] ∧
    traceLines [0, 1, 1, 0] 2 2 [1/2] =
      [⟨[(1/2, 0), (0, 1/2)], 1/2⟩, ⟨[(1/2, 1), (1, 1/2)], 1/2⟩] ∧
    traceLines [1, 1, 1, 0] 2 2 [1/2] = [⟨[(1/2, 1), (1, 1/2)], 1/2⟩] ∧
    traceLines [0, 0, 1, 1] 2 2 [1/2] = [⟨[(1, 1/2), (0, 1/2)], 1/2⟩] ∧
    traceLines [1, 0, 1, 1] 2 2 [1/2] = [⟨[(1, 1/2), (1/2, 0)], 1/2⟩] ∧
    traceLines [0, 1, 1, 1] 2 2 [1/2] = [⟨[(1/2, 0), (0, 1/2)], 1/2⟩] ∧
    traceLines [1, 1, 1, 1] 2 2 [1/2] = [] ∧
    ([(0, 1/2), (1/2, 1)] : List Coordinate).inter [(1, 1/2), (1/2, 0)] = [] ∧
    ([(1/2, 0), (0, 1/2)] : List Coordinate).inter [(1/2, 1), (1, 1/2)] = [] := by
  decide

/-- `coordsEqual` from `contour.ts`: coordinate equality within `EPSILON`. -/
def coordsEqual (a b : Coordinate) : Bool :=
  decide (|a.1 - b.1| < EPSILON) && decide (|a.2 - b.2| < EPSILON)

/-- `ringArea` from `contour.ts`: half the shoelace sum, `j` trailing `i`. -/
def ringArea (ring : List Coordinate) : ℚ :=
  let n := ring.length
  ((List.range n).foldl (fun acc i =>
    let j := if i = 0 then n - 1 else i - 1
    let ci := ring.getD i default
    let cj := ring.getD j default
    acc + (cj.1 - ci.1) * (cj.2 + ci.2)) 0) / 2

/-- `pointInRing` from `contour.ts`: ray-casting parity test. -/
def pointInRing (point : Coordinate) (ring : List Coordinate) : Bool :=
  (List.range ring.length).foldl (fun inside i =>
    let j := if i = 0 then ring.length - 1 else i - 1
    let ci := ring.getD i default
    let cj := ring.getD j default
    if decide (point.2 < ci.2) != decide (point.2 < cj.2) then
      let xIntersect := (cj.1 - ci.1) * (point.2 - ci.2) / (cj.2 - ci.2) + ci.1
      if point.1 < xIntersect then !inside else inside
    else inside) false

/-- `closeRing` from `contour.ts`. -/
def closeRing (coords : List Coordinate) : List Coordinate :=
  if coordsEqual coords.headI coords.getLastI then coords else coords ++ [coords.headI]

/-- `isInsidePolygon` from `contour.ts`. -/
def isInsidePolygon (point : Coordinate) (shell : List Coordinate)
    (existingHoles : List (List Coordinate)) : Bool :=
  pointInRing point shell && !existingHoles.any (fun hole => pointInRing point hole)

/-- An entry of the `polys` array in `buildPolygonsWithHoles`. -/
structure PolyEntry where
  ring : List Coordinate
  area : ℚ
deriving Repr

instance : Inhabited PolyEntry := ⟨⟨[], 0⟩⟩

/-- The construction of the `polys` array: close each traced line, drop
degenerate rings, force exact first/last equality, record absolute area. -/
def buildPolys (lines : List (List Coordinate)) : List PolyEntry :=
  lines.filterMap fun line =>
    let ring := closeRing line
    if ring.length < 4 then none
    else
      let ring' := ring.set (ring.length - 1) ring.headI
      some { ring := ring', area := |ringArea ring'| }

/-- Stable insertion of an entry into a list sorted by decreasing area. -/
def insertByAreaDesc (x : PolyEntry) : List PolyEntry → List PolyEntry
  | [] => [x]
  | y :: ys => if x.area < y.area then y :: insertByAreaDesc x ys else x :: y :: ys

/-- `polys.sort((a, b) => b.area - a.area)`: JS `Array.prototype.sort` is
required to be stable, so any stable descending sort models it; insertion
sort is used because it evaluates by kernel reduction. -/
def sortByAreaDesc (l : List PolyEntry) : List PolyEntry :=
  l.foldr insertByAreaDesc []

/-- A Polygon feature: outer shell first, then holes, plus its properties. -/
structure PolygonFeature (A : Type) where
  rings : List (List Coordinate)
  props : A
deriving Repr

/-- The body of the inner (hole-scanning) loop of `buildPolygonsWithHoles`:
skip used rings, take the candidate as a hole when its first vertex lies
inside the shell and outside every hole taken so far. -/
def holeStep (polys : List PolyEntry) (shell : PolyEntry)
    (st2 : List Bool × List (List Coordinate)) (j : ℕ) :
    List Bool × List (List Coordinate) :=
  if st2.1.getD j false then st2 else
  let candidate := polys.getD j default
  if isInsidePolygon candidate.ring.headI shell.ring st2.2 then
    (st2.1.set j true, st2.2 ++ [candidate.ring])
  else st2

/-- The body of the outer (shell) loop of `buildPolygonsWithHoles`. -/
def polygonStep (polys : List PolyEntry) (level : ℚ)
    (st : List Bool × List (PolygonFeature ℚ)) (i : ℕ) :
    List Bool × List (PolygonFeature ℚ) :=
  if st.1.getD i false then st else
  let shell := polys.getD i default
  let inner := ((List.range polys.length).drop (i + 1)).foldl
    (holeStep polys shell) (st.1, [])
  (inner.1.set i true,
    st.2 ++ [{ rings := shell.ring :: inner.2, props := level }])

/-- `buildPolygonsWithHoles` from `contour.ts`: sort rings by decreasing
area and greedily assign each unused smaller ring as a hole of the first
shell that contains its first vertex outside all previously taken holes. -/
def buildPolygonsWithHoles (lines : List (List Coordinate)) (level : ℚ) :
    List (PolygonFeature ℚ) :=
  let polys := sortByAreaDesc (buildPolys lines)
  ((List.range polys.length).foldl (polygonStep polys level)
    (List.replicate polys.length false, [])).2

/-- `tracePolygons` from `contour.ts`. -/
def tracePolygons (data : List ℚ) (width height : ℕ) (levels : List ℚ) :
    List (PolygonFeature ℚ) :=
  let grid := createGrid data width height
  levels.flatMap fun level =>
    buildPolygonsWithHoles (mergeSegments (collectSegments grid level true)) level

/-- `TILE_SIZE` from `types.ts`. -/
def TILE_SIZE : ℚ := 256

/-- `MVT_EXTENT` from `types.ts`. -/
def MVT_EXTENT : ℚ := 4096

/-- `TransformConfig` from the transform/clip module; the optional fields
default to `TILE_SIZE` and `MVT_EXTENT` at the use sites, as in the source. -/
structure TransformConfig where
  bufferPx : ℚ
  tileSizePx : Option ℚ := none
  mvtExtent : Option ℚ := none

/-- `createTransform`: map buffered grid space to MVT tile space. -/
def createTransform (config : TransformConfig) : Coordinate → Coordinate :=
  let scale := config.mvtExtent.getD MVT_EXTENT / config.tileSizePx.getD TILE_SIZE
  fun coord => ((coord.1 - config.bufferPx) * scale, (coord.2 - config.bufferPx) * scale)

/-- The four clip edges. -/
inductive Edge | left | right | top | bottom
deriving Repr, DecidableEq

/-- `isInsideEdge` from the transform/clip module. -/
def isInsideEdge (p : Coordinate) (edge : Edge) (edgeValue : ℚ) : Bool :=
  match edge with
  | .left => decide (edgeValue ≤ p.1)
  | .right => decide (p.1 ≤ edgeValue)
  | .top => decide (edgeValue ≤ p.2)
  | .bottom => decide (p.2 ≤ edgeValue)

/-- `computeEdgeIntersection` from the transform/clip module. -/
def computeEdgeIntersection (p1 p2 : Coordinate) (edge : Edge) (edgeValue : ℚ) :
    Coordinate :=
  let dx := p2.1 - p1.1
  let dy := p2.2 - p1.2
  match edge with
  | .left | .right =>
    let t := (edgeValue - p1.1) / dx
    (edgeValue, p1.2 + t * dy)
  | .top | .bottom =>
    let t := (edgeValue - p1.2) / dy
    (p1.1 + t * dx, edgeValue)

/-- `clipPolygonAgainstEdge`: one Sutherland-Hodgman pass. -/
def clipPolygonAgainstEdge (ring : List Coordinate) (edge : Edge) (edgeValue : ℚ) :
    List Coordinate :=
  if ring.isEmpty then [] else
  (List.range ring.length).foldl (fun output i =>
    let current := ring.getD i default
    let previous := ring.getD ((i + ring.length - 1) % ring.length) default
    let currentInside := isInsideEdge current edge edgeValue
    let previousInside := isInsideEdge previous edge edgeValue
    if currentInside then
      (if !previousInside then
        output ++ [computeEdgeIntersection previous current edge edgeValue]
      else output) ++ [current]
    else if previousInside then
      output ++ [computeEdgeIntersection previous current edge edgeValue]
    else output) []

/-- `clipPolygonRingToBox`: the four passes, left, right, top, bottom. -/
def clipPolygonRingToBox (ring : List Coordinate) (minX minY maxX maxY : ℚ) :
    List Coordinate :=
  clipPolygonAgainstEdge
    (clipPolygonAgainstEdge
      (clipPolygonAgainstEdge
        (clipPolygonAgainstEdge ring .left minX) .right maxX) .top minY) .bottom maxY

/-- The reclosure step applied to each surviving clipped ring. -/
def recloseRing (clippedRing : List Coordinate) : List Coordinate :=
  let first := clippedRing.headI
  let last := clippedRing.getLastI
  if first.1 ≠ last.1 ∨ first.2 ≠ last.2 then clippedRing ++ [first] else clippedRing

/-- The body of the per-ring loop of `transformAndClipPolygonFeatures`:
transform the ring, clip it, and append it (reclosed) when at least four
vertices survive. -/
def clipRingAccumulate (config : TransformConfig) (acc : List (List Coordinate))
    (ring : List Coordinate) : List (List Coordinate) :=
  let mvtExtent := config.mvtExtent.getD MVT_EXTENT
  let clippedRing := clipPolygonRingToBox (ring.map (createTransform config)) 0 0
    mvtExtent mvtExtent
  if 4 ≤ clippedRing.length then acc ++ [recloseRing clippedRing] else acc

/-- The body of the per-feature loop of `transformAndClipPolygonFeatures`. -/
def clipFeatureAccumulate {A : Type} (config : TransformConfig)
    (result : List (PolygonFeature A)) (feature : PolygonFeature A) :
    List (PolygonFeature A) :=
  let transformedRings := feature.rings.foldl (clipRingAccumulate config) []
  if transformedRings.isEmpty then result
  else result ++ [{ rings := transformedRings, props := feature.props }]

/-- `transformAndClipPolygonFeatures` from the transform/clip module. -/
def transformAndClipPolygonFeatures {A : Type}
    (features : List (PolygonFeature A)) (config : TransformConfig) :
    List (PolygonFeature A) :=
  features.foldl (clipFeatureAccumulate config) []


deriving instance DecidableEq for PolygonFeature

/-- The declarative per-ring survival test of the polygon clipping stage:
transform the ring, clip it to the box, keep it (reclosed) iff at least four
vertices survive. -/
def clipSurvivedRing (config : TransformConfig) (ring : List Coordinate) :
    Option (List Coordinate) :=
  let mvtExtent := config.mvtExtent.getD MVT_EXTENT
  let clippedRing := clipPolygonRingToBox (ring.map (createTransform config)) 0 0
    mvtExtent mvtExtent
  if 4 ≤ clippedRing.length then some (recloseRing clippedRing) else none

lemma clipRingAccumulate_foldl (config : TransformConfig) :
    ∀ (rings : List (List Coordinate)) (acc : List (List Coordinate)),
      rings.foldl (clipRingAccumulate config) acc =
        acc ++ rings.filterMap (clipSurvivedRing config) := by
  intro rings
  induction rings with
  | nil => simp
  | cons ring rings ih =>
    intro acc
    rw [List.foldl_cons, List.filterMap_cons, ih]
    unfold clipRingAccumulate clipSurvivedRing
    by_cases h : 4 ≤ (clipPolygonRingToBox (ring.map (createTransform config)) 0 0
        (config.mvtExtent.getD MVT_EXTENT) (config.mvtExtent.getD MVT_EXTENT)).length
    · simp [h]
    · simp [h]

/-- The declarative form of one output feature: keep the surviving rings,
emit the feature iff at least one ring survived, copy the properties. -/
def clippedPolygonFeature {A : Type} (config : TransformConfig)
    (feature : PolygonFeature A) : Option (PolygonFeature A) :=
  let rings := feature.rings.filterMap (clipSurvivedRing config)
  if rings.isEmpty then none else some { rings := rings, props := feature.props }

lemma clipFeatureAccumulate_foldl {A : Type} (config : TransformConfig) :
    ∀ (features : List (PolygonFeature A)) (acc : List (PolygonFeature A)),
      features.foldl (clipFeatureAccumulate config) acc =
        acc ++ features.filterMap (clippedPolygonFeature config) := by
  intro features
  induction features with
  | nil => simp
  | cons feature features ih =>
    intro acc
    rw [List.foldl_cons, List.filterMap_cons, ih]
    unfold clipFeatureAccumulate clippedPolygonFeature
    rw [clipRingAccumulate_foldl config feature.rings []]
    by_cases h : (feature.rings.filterMap (clipSurvivedRing config)).isEmpty
    · simp [h]
    · simp [h]

/-- The imperative accumulation of `transformAndClipPolygonFeatures` equals
the declarative filter. -/
lemma transformAndClipPolygonFeatures_eq_filterMap {A : Type}
    (features : List (PolygonFeature A)) (config : TransformConfig) :
    transformAndClipPolygonFeatures features config =
      features.filterMap (clippedPolygonFeature config) := by
  unfold transformAndClipPolygonFeatures
  rw [clipFeatureAccumulate_foldl config features []]
  simp

lemma getD_mem_of_lt {A : Type} (l : List A) (i : ℕ) (d : A) (h : i < l.length) :
    l.getD i d ∈ l := by
  rw [List.getD_eq_getElem l d h]
  exact List.getElem_mem h

lemma mem_insertByAreaDesc {x y : PolyEntry} :
    ∀ {l : List PolyEntry}, x ∈ insertByAreaDesc y l ↔ x = y ∨ x ∈ l := by
  intro l
  induction l with
  | nil => simp [insertByAreaDesc]
  | cons z l ih =>
    by_cases h : y.area < z.area
    · simp [insertByAreaDesc, h, ih]
      tauto
    · simp [insertByAreaDesc, h]

lemma mem_sortByAreaDesc {x : PolyEntry} :
    ∀ {l : List PolyEntry}, x ∈ sortByAreaDesc l ↔ x ∈ l := by
  intro l
  induction l with
  | nil => simp [sortByAreaDesc]
  | cons y l ih =>
    simp only [sortByAreaDesc, List.foldr_cons] at *
    rw [mem_insertByAreaDesc, ih]
    simp

lemma head?_of_ne_nil {A : Type} [Inhabited A] {l : List A} (h : l ≠ []) :
    l.head? = some l.headI := by
  cases l with
  | nil => exact absurd rfl h
  | cons a t => rfl

lemma getLast?_of_ne_nil {A : Type} [Inhabited A] {l : List A} (h : l ≠ []) :
    l.getLast? = some l.getLastI := by
  rw [List.getLastI_eq_getLast?]
  cases hl : l.getLast? with
  | none => exact absurd (List.getLast?_eq_none_iff.mp hl) h
  | some z => rfl

/-- Every entry built by `buildPolys` is an exactly closed ring of at least
four positions: the source forces `ring[ring.length - 1] = ring[0]`. -/
lemma buildPolys_closed {lines : List (List Coordinate)} {e : PolyEntry}
    (he : e ∈ buildPolys lines) : e.ring.head? = e.ring.getLast? := by
  rw [buildPolys, List.mem_filterMap] at he
  obtain ⟨line, -, hline⟩ := he
  simp only at hline
  set ring := closeRing line with hring
  by_cases hlen : ring.length < 4
  · simp [hlen] at hline
  · simp only [hlen, if_false] at hline
    have hlen4 : 4 ≤ ring.length := by omega
    have hne : ring ≠ [] := by
      intro h
      rw [h] at hlen4
      simp at hlen4
    have hr : e.ring = ring.set (ring.length - 1) ring.headI := by
      cases hline
      rfl
    have hhead : e.ring.head? = some ring.headI := by
      rw [hr, List.head?_eq_getElem?, List.getElem?_set_ne (by omega)]
      rw [← List.head?_eq_getElem?]
      exact head?_of_ne_nil hne
    have hlast : e.ring.getLast? = some ring.headI := by
      rw [hr, List.getLast?_eq_getElem?, List.length_set]
      exact List.getElem?_set_self (by omega)
    rw [hhead, hlast]

/-- Invariant of the hole-scanning loop: every accumulated hole ring is the
ring of some entry of `polys`. -/
lemma holeStep_foldl_rings (polys : List PolyEntry) (shell : PolyEntry) :
    ∀ (L : List ℕ) (st2 : List Bool × List (List Coordinate)),
      (∀ j ∈ L, j < polys.length) →
      (∀ r ∈ st2.2, ∃ e ∈ polys, r = e.ring) →
      ∀ r ∈ (L.foldl (holeStep polys shell) st2).2, ∃ e ∈ polys, r = e.ring := by
  intro L
  induction L with
  | nil => intro st2 _ hst2; simpa using hst2
  | cons j L ih =>
    intro st2 hL hst2
    rw [List.foldl_cons]
    refine ih _ (fun j' hj' => hL j' (List.mem_cons_of_mem _ hj')) ?_
    intro r hr
    unfold holeStep at hr
    by_cases hused : st2.1.getD j false
    · simp only [hused, if_true] at hr
      exact hst2 r hr
    · simp only [hused, if_false] at hr
      by_cases hin : isInsidePolygon (polys.getD j default).ring.headI shell.ring st2.2
      · simp only [hin, if_true] at hr
        rcases List.mem_append.mp hr with h | h
        · exact hst2 r h
        · exact ⟨polys.getD j default,
            getD_mem_of_lt _ _ _ (hL j (List.mem_cons_self j L)),
            List.mem_singleton.mp h⟩
      · simp only [hin, if_false] at hr
        exact hst2 r hr

/-- Invariant of the shell loop: every ring of every emitted polygon is the
ring of some entry of `polys`. -/
lemma polygonStep_foldl_rings (polys : List PolyEntry) (level : ℚ) :
    ∀ (L : List ℕ) (st : List Bool × List (PolygonFeature ℚ)),
      (∀ i ∈ L, i < polys.length) →
      (∀ f ∈ st.2, ∀ r ∈ f.rings, ∃ e ∈ polys, r = e.ring) →
      ∀ f ∈ (L.foldl (polygonStep polys level) st).2, ∀ r ∈ f.rings,
        ∃ e ∈ polys, r = e.ring := by
  intro L
  induction L with
  | nil => intro st _ hst; simpa using hst
  | cons i L ih =>
    intro st hL hst
    rw [List.foldl_cons]
    refine ih _ (fun i' hi' => hL i' (List.mem_cons_of_mem _ hi')) ?_
    intro f hf r hr
    unfold polygonStep at hf
    by_cases hused : st.1.getD i false
    · simp only [hused, if_true] at hf
      exact hst f hf r hr
    · simp only [hused, if_false] at hf
      rcases List.mem_append.mp hf with h | h
      · exact hst f h r hr
      · have hfeq := List.mem_singleton.mp h
        rw [hfeq] at hr
        rcases List.mem_cons.mp hr with h' | h'
        · exact ⟨polys.getD i default,
            getD_mem_of_lt _ _ _ (hL i (List.mem_cons_self i L)), h'⟩
        · refine holeStep_foldl_rings polys (polys.getD i default) _ (st.1, []) ?_
            (by simp) r h'
          intro j hj
          have := List.mem_of_mem_drop hj
          simpa using this

/-- Every ring of every polygon emitted by `buildPolygonsWithHoles` is one of
the closed rings built by `buildPolys`. -/
lemma buildPolygonsWithHoles_ring_mem {lines : List (List Coordinate)} {level : ℚ}
    {f : PolygonFeature ℚ} (hf : f ∈ buildPolygonsWithHoles lines level)
    {r : List Coordinate} (hr : r ∈ f.rings) :
    ∃ e ∈ buildPolys lines, r = e.ring := by
  unfold buildPolygonsWithHoles at hf
  have := polygonStep_foldl_rings (sortByAreaDesc (buildPolys lines)) level
    (List.range (sortByAreaDesc (buildPolys lines)).length)
    (List.replicate (sortByAreaDesc (buildPolys lines)).length false, [])
    (fun i hi => by simpa using hi) (by simp) f hf r hr
  obtain ⟨e, he, hre⟩ := this
  exact ⟨e, mem_sortByAreaDesc.mp he, hre⟩

/-- The reclosure step yields an exactly closed ring. -/
lemma recloseRing_closed {cl : List Coordinate} (h : cl ≠ []) :
    (recloseRing cl).head? = (recloseRing cl).getLast? := by
  unfold recloseRing
  by_cases hcond : cl.headI.1 ≠ cl.getLastI.1 ∨ cl.headI.2 ≠ cl.getLastI.2
  · simp only [hcond, if_true]
    rw [List.getLast?_append, List.head?_append, head?_of_ne_nil h]
    rfl
  · simp only [hcond, if_false]
    push_neg at hcond
    rw [head?_of_ne_nil h, getLast?_of_ne_nil h, Prod.ext hcond.1 hcond.2]

/-- Rings emitted by the polygon clipper are exactly closed. -/
lemma clipSurvivedRing_closed {config : TransformConfig} {ring r : List Coordinate}
    (h : clipSurvivedRing config ring = some r) : r.head? = r.getLast? := by
  unfold clipSurvivedRing at h
  by_cases hlen : 4 ≤ (clipPolygonRingToBox (ring.map (createTransform config)) 0 0
      (config.mvtExtent.getD MVT_EXTENT) (config.mvtExtent.getD MVT_EXTENT)).length
  · simp only [hlen, if_true, Option.some_inj] at h
    rw [← h]
    refine recloseRing_closed ?_
    intro hnil
    rw [hnil] at hlen
    simp at hlen
  · simp [hlen] at h

/-- C3 counterexample: a polygon whose shell ring is clipped away entirely
(it lies wholly left of the clip box) but whose hole ring survives is not
discarded — the surviving hole is emitted as the polygon's only ring. -/
theorem transformAndClip_keeps_hole_of_clipped_shell :
    transformAndClipPolygonFeatures
      [{ rings := [[(-10, 10), (-5, 10), (-5, 20), (-10, 20), (-10, 10)],
                   [(10, 10), (20, 10), (20, 20), (10, 20), (10, 10)]],
         props := (0 : ℚ) }]
      { bufferPx := 0, tileSizePx := some 256, mvtExtent := some 256 } =
    [{ rings := [[(10, 10), (20, 10), (20, 20), (10, 20), (10, 10)]],
       props := (0 : ℚ) }] := by
  decide

/-- C3 (amended): `transformAndClipPolygonFeatures` clips every ring of every
feature, re-closes each surviving clipped ring by appending its first vertex
when the last differs, drops every ring left with fewer than four vertices,
discards a polygon only when all of its rings are clipped away — a polygon
whose shell ring is clipped away but one of whose hole rings survives is
still emitted, with the surviving rings in order — and copies the feature
properties unchanged onto the surviving polygons. -/
theorem transformAndClipPolygonFeatures_spec {A : Type}
    (features : List (PolygonFeature A)) (config : TransformConfig) :
    transformAndClipPolygonFeatures features config =
      features.filterMap (clippedPolygonFeature config) ∧
    ∀ f ∈ transformAndClipPolygonFeatures features config,
      ∃ g ∈ features, f.props = g.props ∧
        f.rings = g.rings.filterMap (clipSurvivedRing config) ∧ f.rings ≠ [] := by
  refine ⟨transformAndClipPolygonFeatures_eq_filterMap features config, ?_⟩
  intro f hf
  rw [transformAndClipPolygonFeatures_eq_filterMap] at hf
  obtain ⟨g, hg, hfg⟩ := List.mem_filterMap.mp hf
  unfold clippedPolygonFeature at hfg
  by_cases hempty : (g.rings.filterMap (clipSurvivedRing config)).isEmpty
  · simp [hempty] at hfg
  · simp only [hempty, Bool.false_eq_true, if_false, Option.some_inj] at hfg
    refine ⟨g, hg, ?_, ?_, ?_⟩
    · rw [← hfg]
    · rw [← hfg]
    · rw [← hfg]
      simpa using hempty

/-- C3 witness: a square already inside the extent survives clipping and is
emitted with its properties intact. -/
theorem transformAndClipPolygonFeatures_spec_witness :
    ∃ g ∈ [({ rings := [[((0 : ℚ), (0 : ℚ)), (10, 0), (10, 10), (0, 10), (0, 0)]],
              props := (5 : ℚ) } : PolygonFeature ℚ)],
      ({ rings := [[((0 : ℚ), (0 : ℚ)), (10, 0), (10, 10), (0, 10), (0, 0)]],
         props := (5 : ℚ) } : PolygonFeature ℚ).props = g.props ∧
      ({ rings := [[((0 : ℚ), (0 : ℚ)), (10, 0), (10, 10), (0, 10), (0, 0)]],
         props := (5 : ℚ) } : PolygonFeature ℚ).rings =
        g.rings.filterMap (clipSurvivedRing
          { bufferPx := 0, tileSizePx := some 256, mvtExtent := some 256 }) ∧
      ({ rings := [[((0 : ℚ), (0 : ℚ)), (10, 0), (10, 10), (0, 10), (0, 0)]],
         props := (5 : ℚ) } : PolygonFeature ℚ).rings ≠ [] :=
  (transformAndClipPolygonFeatures_spec
    [{ rings := [[((0 : ℚ), (0 : ℚ)), (10, 0), (10, 10), (0, 10), (0, 0)]],
       props := (5 : ℚ) }]
    { bufferPx := 0, tileSizePx := some 256, mvtExtent := some 256 }).2
    { rings := [[((0 : ℚ), (0 : ℚ)), (10, 0), (10, 10), (0, 10), (0, 0)]],
      props := (5 : ℚ) }
    (by decide)

/-- C4: every ring of every polygon feature emitted by `tracePolygons`, and
every ring of every polygon emitted by `transformAndClipPolygonFeatures`, has
its first and last position exactly equal. -/
theorem emitted_rings_exactly_closed :
    (∀ (data : List ℚ) (width height : ℕ) (levels : List ℚ)
        (f : PolygonFeature ℚ) (r : List Coordinate),
        f ∈ tracePolygons data width height levels → r ∈ f.rings →
        r.head? = r.getLast?) ∧
    (∀ (A : Type) (features : List (PolygonFeature A)) (config : TransformConfig)
        (f : PolygonFeature A) (r : List Coordinate),
        f ∈ transformAndClipPolygonFeatures features config → r ∈ f.rings →
        r.head? = r.getLast?) := by
  constructor
  · intro data width height levels f r hf hr
    unfold tracePolygons at hf
    obtain ⟨level, -, hf'⟩ := List.mem_flatMap.mp hf
    obtain ⟨e, he, hre⟩ := buildPolygonsWithHoles_ring_mem hf' hr
    rw [hre]
    exact buildPolys_closed he
  · intro A features config f r hf hr
    rw [transformAndClipPolygonFeatures_eq_filterMap] at hf
    obtain ⟨g, -, hg⟩ := List.mem_filterMap.mp hf
    unfold clippedPolygonFeature at hg
    by_cases hempty : (g.rings.filterMap (clipSurvivedRing config)).isEmpty
    · simp [hempty] at hg
    · simp only [hempty, Bool.false_eq_true, if_false, Option.some_inj] at hg
      rw [← hg] at hr
      obtain ⟨ring0, -, hsome⟩ := List.mem_filterMap.mp hr
      exact clipSurvivedRing_closed hsome

set_option maxHeartbeats 1000000 in
/-- C4 witness: the closure property evaluated on a concrete traced polygon
(the full-square case 15 band) and on a concrete clipped polygon. -/
theorem emitted_rings_exactly_closed_witness :
    (([((0 : ℚ), (1 : ℚ)), (1, 1), (1, 0), (0, 0), (0, 1)] :
        List Coordinate).head? =
      ([((0 : ℚ), (1 : ℚ)), (1, 1), (1, 0), (0, 0), (0, 1)] :
        List Coordinate).getLast?) ∧
    (([((0 : ℚ), (0 : ℚ)), (10, 0), (10, 10), (0, 10), (0, 0)] :
        List Coordinate).head? =
      ([((0 : ℚ), (0 : ℚ)), (10, 0), (10, 10), (0, 10), (0, 0)] :
        List Coordinate).getLast?) :=
  ⟨emitted_rings_exactly_closed.1 [1, 1, 1, 1] 2 2 [1/2]
    { rings := [[((0 : ℚ), (1 : ℚ)), (1, 1), (1, 0), (0, 0), (0, 1)]], props := 1/2 }
    [((0 : ℚ), (1 : ℚ)), (1, 1), (1, 0), (0, 0), (0, 1)]
    (by decide) (by decide),
   emitted_rings_exactly_closed.2 ℚ
    [{ rings := [[((0 : ℚ), (0 : ℚ)), (10, 0), (10, 10), (0, 10), (0, 0)]],
       props := (5 : ℚ) }]
    { bufferPx := 0, tileSizePx := some 256, mvtExtent := some 256 }
    { rings := [[((0 : ℚ), (0 : ℚ)), (10, 0), (10, 10), (0, 10), (0, 0)]],
      props := (5 : ℚ) }
    [((0 : ℚ), (0 : ℚ)), (10, 0), (10, 10), (0, 10), (0, 0)]
    (by decide) (by decide)⟩

/-- `MAPBOX_OFFSET` from `elevation.ts`. -/
def MAPBOX_OFFSET : ℚ := 10000

/-- `TERRARIUM_OFFSET` from `elevation.ts`. -/
def TERRARIUM_OFFSET : ℚ := 32768

/-- JavaScript truncation toward zero, as used by the JS `%` operator. -/
def jsTrunc (q : ℚ) : ℤ := if q < 0 then -Rat.floor (-q) else Rat.floor q

/-- The JavaScript remainder `a % m` (it takes the sign of the dividend). -/
def jsMod (a m : ℚ) : ℚ := a - m * (jsTrunc (a / m) : ℚ)

/-- `decodeMapbox` from `elevation.ts`. -/
def decodeMapbox (r g b : ℤ) : ℚ :=
  ((r * 256 * 256 + g * 256 + b : ℤ) : ℚ) / 10 - MAPBOX_OFFSET

/-- `encodeMapbox` from `elevation.ts`.  The JS byte extractions
`(value >> 16) & 0xff`, `(value >> 8) & 0xff`, `value & 0xff` agree with
Euclidean division and remainder on the values reachable from the valid
elevation range (`0 ≤ value < 2^24`). -/
def encodeMapbox (elevation : ℚ) : ℤ × ℤ × ℤ :=
  let value := jsRound ((elevation + MAPBOX_OFFSET) * 10)
  (value / 65536 % 256, value / 256 % 256, value % 256)

/-- `decodeTerrarium` from `elevation.ts`. -/
def decodeTerrarium (r g b : ℤ) : ℚ :=
  (r : ℚ) * 256 + (g : ℚ) + (b : ℚ) / 256 - TERRARIUM_OFFSET

/-- `encodeTerrarium` from `elevation.ts`. -/
def encodeTerrarium (elevation : ℚ) : ℤ × ℤ × ℤ :=
  let adjusted := elevation + TERRARIUM_OFFSET
  let r := Rat.floor (adjusted / 256)
  let g := Rat.floor (jsMod adjusted 256)
  let b := Rat.floor ((adjusted - (r : ℚ) * 256 - (g : ℚ)) * 256)
  (r, g, b)

/-- Elevations whose MapBox encoding fits the three RGB bytes. -/
def mapboxValid (h : ℚ) : Prop := -10000 ≤ h ∧ h ≤ (2 ^ 24 - 1) / 10 - 10000

/-- Elevations whose Terrarium encoding fits the three RGB bytes. -/
def terrariumValid (h : ℚ) : Prop := -32768 ≤ h ∧ h < 32768

lemma ratFloor_eq_intFloor (q : ℚ) : Rat.floor q = ⌊q⌋ := by
  have h1 : Rat.floor q ≤ ⌊q⌋ := Int.le_floor.mpr (Rat.le_floor.mp le_rfl)
  have h2 : ⌊q⌋ ≤ Rat.floor q := Rat.le_floor.mpr (Int.floor_le q)
  omega

lemma jsRound_eq_floor (q : ℚ) : jsRound q = ⌊q + 1 / 2⌋ := by
  rw [jsRound, ratFloor_eq_intFloor]

lemma jsRound_close (q : ℚ) : |(jsRound q : ℚ) - q| ≤ 1 / 2 := by
  rw [jsRound_eq_floor]
  have h1 := Int.floor_le (q + 1 / 2)
  have h2 := Int.lt_floor_add_one (q + 1 / 2)
  rw [abs_le]
  constructor <;> linarith

/-- C5: for every elevation in the valid range of each scheme, decoding the
encoded RGB triple recovers the elevation within the scheme's tolerance:
0.05 m for MapBox and 0.004 m for Terrarium. -/
theorem encode_decode_roundtrip (h₁ h₂ : ℚ)
    (hv₁ : mapboxValid h₁) (hv₂ : terrariumValid h₂) :
    |decodeMapbox (encodeMapbox h₁).1 (encodeMapbox h₁).2.1 (encodeMapbox h₁).2.2
      - h₁| ≤ 5 / 100 ∧
    |decodeTerrarium (encodeTerrarium h₂).1 (encodeTerrarium h₂).2.1
      (encodeTerrarium h₂).2.2 - h₂| ≤ 4 / 1000 := by
  obtain ⟨hv₁l, hv₁u⟩ := hv₁
  obtain ⟨hv₂l, hv₂u⟩ := hv₂
  constructor
  · set q : ℚ := (h₁ + MAPBOX_OFFSET) * 10 with hqdef
    set v : ℤ := jsRound q with hvdef
    have hoff : MAPBOX_OFFSET = 10000 := rfl
    have hq0 : 0 ≤ q := by rw [hqdef, hoff]; linarith
    have hqU : q ≤ 2 ^ 24 - 1 := by
      rw [hqdef, hoff]
      have h10 : (h₁ + 10000) * 10 ≤ ((2 ^ 24 - 1) / 10) * 10 := by
        have : h₁ + 10000 ≤ (2 ^ 24 - 1) / 10 := by linarith
        linarith
      calc (h₁ + 10000) * 10 ≤ ((2 ^ 24 - 1) / 10) * 10 := h10
        _ = 2 ^ 24 - 1 := by norm_num
    have hv0 : 0 ≤ v := by
      rw [hvdef, jsRound_eq_floor]
      exact Int.le_floor.mpr (by push_cast; linarith)
    have hvU : v < 2 ^ 24 := by
      rw [hvdef, jsRound_eq_floor]
      refine Int.floor_lt.mpr ?_
      push_cast
      linarith
    have hdec : decodeMapbox (encodeMapbox h₁).1 (encodeMapbox h₁).2.1
        (encodeMapbox h₁).2.2 =
        ((v / 65536 % 256 * 256 * 256 + v / 256 % 256 * 256 + v % 256 : ℤ) : ℚ)
          / 10 - MAPBOX_OFFSET := rfl
    have hdigits : v / 65536 % 256 * 256 * 256 + v / 256 % 256 * 256 + v % 256 = v := by
      omega
    have hclose := jsRound_close q
    rw [← hvdef] at hclose
    have key : ((v : ℚ)) / 10 - MAPBOX_OFFSET - h₁ = ((v : ℚ) - q) / 10 := by
      rw [hqdef, hoff]
      ring
    rw [hdec, hdigits, key, abs_div, show |(10 : ℚ)| = 10 from by norm_num]
    linarith
  · set a : ℚ := h₂ + TERRARIUM_OFFSET with hadef
    have hoff : TERRARIUM_OFFSET = 32768 := rfl
    have ha0 : 0 ≤ a := by rw [hadef, hoff]; linarith
    have haU : a < 65536 := by rw [hadef, hoff]; linarith
    set r : ℤ := Rat.floor (a / 256) with hrdef
    have hrfloor : r = ⌊a / 256⌋ := by rw [hrdef, ratFloor_eq_intFloor]
    have hr1 : (r : ℚ) * 256 ≤ a := by
      have h := Int.floor_le (a / 256)
      rw [← hrfloor] at h
      linarith
    have hr2 : a < (r : ℚ) * 256 + 256 := by
      have h := Int.lt_floor_add_one (a / 256)
      rw [← hrfloor] at h
      have : a / 256 < (r : ℚ) + 1 := h
      linarith
    set u : ℚ := a - (r : ℚ) * 256 with hudef
    have hu0 : 0 ≤ u := by rw [hudef]; linarith
    have huU : u < 256 := by rw [hudef]; linarith
    have htrunc : jsTrunc (a / 256) = r := by
      rw [jsTrunc, if_neg (not_lt.mpr (div_nonneg ha0 (by norm_num)))]
    have hmod : jsMod a 256 = u := by
      rw [jsMod, htrunc, hudef]
      ring
    set g : ℤ := Rat.floor (jsMod a 256) with hgdef
    have hgu : g = ⌊u⌋ := by rw [hgdef, hmod, ratFloor_eq_intFloor]
    have hg1 : (g : ℚ) ≤ u := by
      have h := Int.floor_le u
      rw [← hgu] at h
      exact h
    have hg2 : u < (g : ℚ) + 1 := by
      have h := Int.lt_floor_add_one u
      rw [← hgu] at h
      exact h
    set b : ℤ := Rat.floor ((a - (r : ℚ) * 256 - (g : ℚ)) * 256) with hbdef
    have hbfloor : b = ⌊(u - (g : ℚ)) * 256⌋ := by
      rw [hbdef, ratFloor_eq_intFloor, hudef]
    have hb1 : (b : ℚ) ≤ (u - (g : ℚ)) * 256 := by
      have h := Int.floor_le ((u - (g : ℚ)) * 256)
      rw [← hbfloor] at h
      exact h
    have hb2 : (u - (g : ℚ)) * 256 < (b : ℚ) + 1 := by
      have h := Int.lt_floor_add_one ((u - (g : ℚ)) * 256)
      rw [← hbfloor] at h
      exact h
    have hdec : decodeTerrarium (encodeTerrarium h₂).1 (encodeTerrarium h₂).2.1
        (encodeTerrarium h₂).2.2 =
        (r : ℚ) * 256 + (g : ℚ) + (b : ℚ) / 256 - TERRARIUM_OFFSET := rfl
    have key : (r : ℚ) * 256 + (g : ℚ) + (b : ℚ) / 256 - TERRARIUM_OFFSET - h₂ =
        (b : ℚ) / 256 - (u - (g : ℚ)) := by
      rw [hudef, hadef]
      ring
    rw [hdec, key, abs_le]
    constructor <;> linarith

/-- C5 witness: the round-trip bound at the in-range elevations 123.4 m
(MapBox) and -27.5 m (Terrarium). -/
theorem encode_decode_roundtrip_witness :
    |decodeMapbox (encodeMapbox (1234 / 10)).1 (encodeMapbox (1234 / 10)).2.1
      (encodeMapbox (1234 / 10)).2.2 - 1234 / 10| ≤ 5 / 100 ∧
    |decodeTerrarium (encodeTerrarium (-55 / 2)).1 (encodeTerrarium (-55 / 2)).2.1
      (encodeTerrarium (-55 / 2)).2.2 - (-55 / 2)| ≤ 4 / 1000 :=
  encode_decode_roundtrip (1234 / 10) (-55 / 2)
    (by constructor <;> decide) (by constructor <;> decide)

/-- `DEFAULT_ITERATIONS` from `smooth.ts`. -/
def DEFAULT_ITERATIONS : ℕ := 2

/-- `DEFAULT_FACTOR` from `smooth.ts`. -/
def DEFAULT_FACTOR : ℚ := 1 / 4

/-- `isClosedRing` from `smooth.ts`: tolerance 1e-10 on both components. -/
def isClosedRing (coords : List Coordinate) : Bool :=
  if coords.length < 4 then false else
  decide (|coords.headI.1 - coords.getLastI.1| < 1 / 10 ^ 10) &&
    decide (|coords.headI.2 - coords.getLastI.2| < 1 / 10 ^ 10)

/-- `subdivideCoords` from `smooth.ts`: Chaikin corner cutting with modular
wrap-around; `result[2i]` and `result[2i+1]` become consecutive pairs. -/
def subdivideCoords (coords : List Coordinate) (factor : ℚ) : List Coordinate :=
  let n := coords.length
  let f1 := 1 - factor
  let f2 := factor
  (List.range n).flatMap fun i =>
    let c1 := coords.getD i default
    let c2 := coords.getD ((i + 1) % n) default
    [(f1 * c1.1 + f2 * c2.1, f1 * c1.2 + f2 * c2.2),
     (f2 * c1.1 + f1 * c2.1, f2 * c1.2 + f1 * c2.2)]

/-- `computeTrimLength` from `smooth.ts`; the product of three consecutive
factors is divisible by 6, so natural division is exact, as in JS. -/
def computeTrimLength (iterations : ℕ) : ℕ :=
  iterations * (iterations + 1) * (2 * iterations + 1) / 6

/-- `smoothOpenLine` from `smooth.ts`.  JS `iterations` is a loop count, so it
is modelled as a natural number; the `iterations <= 0` early return is the
`iterations = 0` case. -/
def smoothOpenLine (coords : List Coordinate) (iterations : ℕ) (factor : ℚ) :
    List Coordinate :=
  if iterations = 0 || coords.length < 2 then coords else
  let current := (fun c => subdivideCoords c factor)^[iterations] coords
  let trimLength := computeTrimLength iterations
  [coords.headI] ++ current.take (current.length - trimLength) ++ [coords.getLastI]

/-- `smoothClosedRing` from `smooth.ts`. -/
def smoothClosedRing (coords : List Coordinate) (iterations : ℕ) (factor : ℚ) :
    List Coordinate :=
  let start := if isClosedRing coords then coords.dropLast else coords
  let current := (fun c => subdivideCoords c factor)^[iterations] start
  current ++ [current.headI]

/-- `smoothCoords` from `smooth.ts`. -/
def smoothCoords (coords : List Coordinate) (iterations : ℕ) (factor : ℚ)
    (closed : Bool) : List Coordinate :=
  if coords.length < 2 then coords
  else if closed || isClosedRing coords then smoothClosedRing coords iterations factor
  else smoothOpenLine coords iterations factor

/-- C7: for every open polyline of at least two coordinates whose first and
last points do not coincide within the 1e-10 tolerance, and for every
iteration count and factor, smoothing preserves the original first and last
vertices exactly. -/
theorem smoothCoords_open_preserves_endpoints
    (coords : List Coordinate) (iterations : ℕ) (factor : ℚ)
    (hn : 2 ≤ coords.length)
    (hopen : ¬(|coords.headI.1 - coords.getLastI.1| < 1 / 10 ^ 10 ∧
               |coords.headI.2 - coords.getLastI.2| < 1 / 10 ^ 10)) :
    (smoothCoords coords iterations factor false).head? = coords.head? ∧
    (smoothCoords coords iterations factor false).getLast? = coords.getLast? := by
  have hne : coords ≠ [] := by
    intro h
    rw [h] at hn
    simp at hn
  have hiC : isClosedRing coords = false := by
    rw [isClosedRing]
    split
    · rfl
    · rw [Bool.and_eq_false_iff]
      rcases not_and_or.mp hopen with h | h
      · left
        simpa using h
      · right
        simpa using h
  have hlt : ¬ coords.length < 2 := by omega
  rw [smoothCoords, if_neg hlt, hiC]
  simp only [Bool.or_false, if_neg Bool.false_ne_true]
  rw [smoothOpenLine]
  by_cases hit : iterations = 0
  · simp [hit]
  · have hcond : (decide (iterations = 0) || decide (coords.length < 2)) = false := by
      simp [hit, hlt]
    simp only [hcond, Bool.false_eq_true, if_false]
    constructor
    · rw [head?_of_ne_nil hne]
      rfl
    · rw [getLast?_of_ne_nil hne]
      rw [List.getLast?_append]
      rfl

/-- C7 witness: a concrete open polyline with the default options. -/
theorem smoothCoords_open_preserves_endpoints_witness :
    (smoothCoords [((0 : ℚ), (0 : ℚ)), (1, 0), (2, 1)] 2 (1 / 4) false).head? =
      ([((0 : ℚ), (0 : ℚ)), (1, 0), (2, 1)] : List Coordinate).head? ∧
    (smoothCoords [((0 : ℚ), (0 : ℚ)), (1, 0), (2, 1)] 2 (1 / 4) false).getLast? =
      ([((0 : ℚ), (0 : ℚ)), (1, 0), (2, 1)] : List Coordinate).getLast? :=
  smoothCoords_open_preserves_endpoints [((0 : ℚ), (0 : ℚ)), (1, 0), (2, 1)] 2 (1 / 4)
    (by decide) (by decide)

/-- `generateLevels` from `types.ts`: `for (let level = min; level < max;
level += interval) levels.push(level)`.  The hypothesis `0 < interval` is the
termination measure's requirement; the loop body is literal. -/
def generateLevels (lo hi interval : ℚ) (hpos : 0 < interval) : List ℚ :=
  if _h : lo < hi then lo :: generateLevels (lo + interval) hi interval hpos else []
termination_by (⌈(hi - lo) / interval⌉).toNat
decreasing_by
  have hne : interval ≠ 0 := ne_of_gt hpos
  have hstep : (hi - (lo + interval)) / interval = (hi - lo) / interval - 1 := by
    field_simp
    ring
  rw [hstep, Int.ceil_sub_one]
  have hceil : 0 < ⌈(hi - lo) / interval⌉ :=
    Int.ceil_pos.mpr (div_pos (by linarith) hpos)
  omega

/-- The loop variable of `generateLevels` after `n` iterations of
`level += interval`. -/
def generateLevelsIter (lo interval : ℚ) : ℕ → ℚ
  | 0 => lo
  | n + 1 => generateLevelsIter lo interval n + interval

lemma generateLevelsIter_eq (lo interval : ℚ) (n : ℕ) :
    generateLevelsIter lo interval n = lo + n * interval := by
  induction n with
  | zero => simp [generateLevelsIter]
  | succ n ih =>
    rw [generateLevelsIter, ih]
    push_cast
    ring

lemma generateLevels_closed_form (hi interval : ℚ) (hpos : 0 < interval) :
    ∀ (N : ℕ) (lo : ℚ), (⌈(hi - lo) / interval⌉).toNat = N →
      generateLevels lo hi interval hpos =
        (List.range N).map (fun k : ℕ => lo + (k : ℚ) * interval) := by
  intro N
  induction N with
  | zero =>
    intro lo hN
    rw [generateLevels]
    have hnlt : ¬ lo < hi := by
      intro hlt
      have : 0 < ⌈(hi - lo) / interval⌉ :=
        Int.ceil_pos.mpr (div_pos (by linarith) hpos)
      omega
    simp [hnlt]
  | succ N ih =>
    intro lo hN
    have hlt : lo < hi := by
      by_contra hge
      have hle : (hi - lo) / interval ≤ 0 :=
        div_nonpos_of_nonpos_of_nonneg (by linarith) (le_of_lt hpos)
      have : ⌈(hi - lo) / interval⌉ ≤ 0 := Int.ceil_le.mpr (by exact_mod_cast hle)
      omega
    rw [generateLevels, dif_pos hlt]
    have hnext : (⌈(hi - (lo + interval)) / interval⌉).toNat = N := by
      have hne : interval ≠ 0 := ne_of_gt hpos
      have hstep : (hi - (lo + interval)) / interval = (hi - lo) / interval - 1 := by
        field_simp
        ring
      rw [hstep, Int.ceil_sub_one]
      have : 0 < ⌈(hi - lo) / interval⌉ :=
        Int.ceil_pos.mpr (div_pos (by linarith) hpos)
      omega
    rw [ih _ hnext, List.range_succ_eq_map, List.map_cons, List.map_map]
    congr 1
    · norm_num
    · refine List.map_congr_left ?_
      intro k _
      simp only [Function.comp]
      push_cast
      ring

/-- C10: with a positive interval, `generateLevels` terminates and returns
exactly the strictly increasing arithmetic sequence of all values
`lo + k*interval` that are strictly below `hi` (empty when `hi ≤ lo`); and the
positivity is necessary: with `interval ≤ 0` and `lo < hi` the loop guard
`level < hi` holds after every iteration, so the loop never exits. -/
theorem generateLevels_spec (lo hi interval : ℚ) (hpos : 0 < interval) :
    (∀ k : ℕ, lo + (k : ℚ) * interval < hi ↔
        k < (generateLevels lo hi interval hpos).length) ∧
    (∀ k : ℕ, k < (generateLevels lo hi interval hpos).length →
        (generateLevels lo hi interval hpos).getD k 0 = lo + (k : ℚ) * interval) ∧
    (generateLevels lo hi interval hpos).Pairwise (· < ·) ∧
    (hi ≤ lo → generateLevels lo hi interval hpos = []) ∧
    (∀ lo' hi' interval' : ℚ, interval' ≤ 0 → lo' < hi' →
        ∀ n : ℕ, generateLevelsIter lo' interval' n < hi') := by
  have hform := generateLevels_closed_form hi interval hpos
    (⌈(hi - lo) / interval⌉).toNat lo rfl
  have hlen : (generateLevels lo hi interval hpos).length =
      (⌈(hi - lo) / interval⌉).toNat := by
    rw [hform]
    simp
  refine ⟨?_, ?_, ?_, ?_, ?_⟩
  · intro k
    rw [hlen]
    constructor
    · intro hk
      have h1 : (k : ℚ) < (hi - lo) / interval := (lt_div_iff₀ hpos).mpr (by linarith)
      have h2 : (k : ℤ) < ⌈(hi - lo) / interval⌉ := Int.lt_ceil.mpr (by exact_mod_cast h1)
      omega
    · intro hk
      have h2 : (k : ℤ) < ⌈(hi - lo) / interval⌉ := by omega
      have h1 : (k : ℚ) < (hi - lo) / interval := by exact_mod_cast Int.lt_ceil.mp h2
      have := (lt_div_iff₀ hpos).mp h1
      linarith
  · intro k hk
    rw [hlen] at hk
    rw [hform, List.getD_eq_getElem _ _ (by simpa using hk)]
    simp
  · rw [hform]
    refine List.Pairwise.map _ ?_ (List.pairwise_lt_range _)
    intro a b hab
    have hc : (a : ℚ) < (b : ℚ) := by exact_mod_cast hab
    have := mul_lt_mul_of_pos_right hc hpos
    linarith
  · intro hge
    rw [hform]
    have hle : ⌈(hi - lo) / interval⌉ ≤ 0 := Int.ceil_le.mpr
      (by exact_mod_cast div_nonpos_of_nonpos_of_nonneg (by linarith) (le_of_lt hpos))
    have h0 : (⌈(hi - lo) / interval⌉).toNat = 0 := by omega
    rw [h0]
    simp
  · intro lo' hi' interval' hI hlt n
    rw [generateLevelsIter_eq]
    have hn : (0 : ℚ) ≤ (n : ℚ) := by positivity
    nlinarith

/-- C10 witness: the hillshade level sequence 0,32,... below 256 contains the
index-3 value 96, and with interval -1 the loop variable stays below the
bound forever. -/
theorem generateLevels_spec_witness :
    ((0 : ℚ) + ((3 : ℕ) : ℚ) * 32 < 256 ↔
      (3 : ℕ) < (generateLevels 0 256 32 (by norm_num)).length) ∧
    generateLevelsIter 0 (-1) 5 < 1 :=
  ⟨(generateLevels_spec 0 256 32 (by norm_num)).1 3,
   (generateLevels_spec 0 256 32 (by norm_num)).2.2.2.2 0 1 (-1)
     (by norm_num) (by norm_num) 5⟩

noncomputable section Hillshade

/-- `EARTH_RADIUS` from `hillshade.ts`. -/
def EARTH_RADIUS : ℝ := 6378137

/-- The real-valued grid used by the hillshade kernel; `data` is the linear
row-major array, total as a function. -/
structure RGrid where
  data : ℕ → ℝ
  width : ℕ
  height : ℕ

/-- `gridGet` from `grid.ts`, over the real-valued grid: clamped access. -/
def rGridGet (grid : RGrid) (x y : ℤ) : ℝ :=
  let clampedX : ℤ := max 0 (min ((grid.width : ℤ) - 1) x)
  let clampedY : ℤ := max 0 (min ((grid.height : ℤ) - 1) y)
  grid.data (clampedY * (grid.width : ℤ) + clampedX).toNat

/-- `FLAT_THRESHOLD_SQ = 1e-10` from `hillshade.ts`. -/
def FLAT_THRESHOLD_SQ : ℝ := 1 / 10 ^ 10

/-- `computePixelHillshadeFast` from `hillshade.ts`: Sobel gradients, the
flat-terrain fast path, then the sun-normal dot product with clamping. -/
def computePixelHillshadeFast (grid : RGrid) (x y : ℤ)
    (gradientScale sunX sunY sunZ flatIllumination : ℝ) : ℝ :=
  let a := rGridGet grid (x - 1) (y - 1)
  let b := rGridGet grid x (y - 1)
  let c := rGridGet grid (x + 1) (y - 1)
  let d := rGridGet grid (x - 1) y
  let f := rGridGet grid (x + 1) y
  let g := rGridGet grid (x - 1) (y + 1)
  let h := rGridGet grid x (y + 1)
  let i := rGridGet grid (x + 1) (y + 1)
  let dzdx := (c + 2 * f + i - (a + 2 * d + g)) * gradientScale
  let dzdy := (g + 2 * h + i - (a + 2 * b + c)) * gradientScale
  let gradMagSq := dzdx * dzdx + dzdy * dzdy
  if gradMagSq < FLAT_THRESHOLD_SQ then flatIllumination
  else
    let normalMag := Real.sqrt (gradMagSq + 1)
    let dotProduct := (-sunX * dzdx - sunY * dzdy + sunZ) / normalMag
    let illumination := 255 * dotProduct
    if illumination < 0 then 0 else if illumination > 255 then 255 else illumination

/-- `hillshade` from `hillshade.ts` (the optimized, first copy in the file):
sun-vector precomputation then the fast per-pixel kernel; `validateSunPosition`
appears as hypotheses of the theorems. -/
def hillshadeFast (data : ℕ → ℝ) (width height : ℕ)
    (cellSize altitude azimuth : ℝ) : RGrid :=
  let grid : RGrid := ⟨data, width, height⟩
  let azimuthRad := (360 - azimuth + 90) * Real.pi / 180
  let zenithRad := (90 - altitude) * Real.pi / 180
  let cosZenith := Real.cos zenithRad
  let sinZenith := Real.sin zenithRad
  let sunX := sinZenith * Real.cos azimuthRad
  let sunY := sinZenith * Real.sin azimuthRad
  let sunZ := cosZenith
  let gradientScale := 1 / (8 * cellSize)
  let flatIllumination := 255 * cosZenith
  ⟨fun idx => computePixelHillshadeFast grid ((idx % width : ℕ) : ℤ)
      ((idx / width : ℕ) : ℤ) gradientScale sunX sunY sunZ flatIllumination,
    width, height⟩

/-- JavaScript `Math.atan2` (result in `(-π, π]`, `atan2 0 0 = 0`). -/
def jsAtan2 (y x : ℝ) : ℝ :=
  if 0 < x then Real.arctan (y / x)
  else if x < 0 then
    (if 0 ≤ y then Real.arctan (y / x) + Real.pi else Real.arctan (y / x) - Real.pi)
  else if 0 < y then Real.pi / 2
  else if y < 0 then -(Real.pi / 2)
  else 0

/-- `computePixelHillshade` from the slope/aspect copy of `hillshade.ts`:
Sobel gradients, slope and aspect angles, Lambertian reflectance, clamping. -/
def computePixelHillshade (grid : RGrid) (x y : ℤ)
    (cellSize azimuthRad cosZenith sinZenith : ℝ) : ℝ :=
  let a := rGridGet grid (x - 1) (y - 1)
  let b := rGridGet grid x (y - 1)
  let c := rGridGet grid (x + 1) (y - 1)
  let d := rGridGet grid (x - 1) y
  let f := rGridGet grid (x + 1) y
  let g := rGridGet grid (x - 1) (y + 1)
  let h := rGridGet grid x (y + 1)
  let i := rGridGet grid (x + 1) (y + 1)
  let dzdx := (c + 2 * f + i - (a + 2 * d + g)) / (8 * cellSize)
  let dzdy := (g + 2 * h + i - (a + 2 * b + c)) / (8 * cellSize)
  let slopeRad := Real.arctan (Real.sqrt (dzdx * dzdx + dzdy * dzdy))
  let aspectRad0 := jsAtan2 dzdy (-dzdx)
  let aspectRad := if aspectRad0 < 0 then aspectRad0 + 2 * Real.pi else aspectRad0
  let illumination := cosZenith * Real.cos slopeRad +
    sinZenith * Real.sin slopeRad * Real.cos (azimuthRad - aspectRad)
  max 0 (min 255 (255 * illumination))

/-- `hillshade` from the slope/aspect copy of `hillshade.ts`. -/
def hillshadeSlow (data : ℕ → ℝ) (width height : ℕ)
    (cellSize altitude azimuth : ℝ) : RGrid :=
  let grid : RGrid := ⟨data, width, height⟩
  let azimuthRad := (360 - azimuth + 90) * Real.pi / 180
  let zenithRad := (90 - altitude) * Real.pi / 180
  let cosZenith := Real.cos zenithRad
  let sinZenith := Real.sin zenithRad
  ⟨fun idx => computePixelHillshade grid ((idx % width : ℕ) : ℤ)
      ((idx / width : ℕ) : ℤ) cellSize azimuthRad cosZenith sinZenith,
    width, height⟩

/-- `getResolution` from `hillshade.ts`. -/
def getResolution (zoom : ℕ) (tileSize : ℝ) : ℝ :=
  (2 * Real.pi * EARTH_RADIUS) / (tileSize * 2 ^ zoom)

end Hillshade

/-- C8: halving law for the web-Mercator resolution; over the reals the
identity is exact (and the binary floating-point evaluation of the source
divides exactly by two, so exact equality implies the 5-ULP bound). -/
theorem getResolution_halves (zoom : ℕ) (tileSize : ℝ) :
    getResolution (zoom + 1) tileSize = getResolution zoom tileSize / 2 := by
  unfold getResolution
  rw [pow_succ, div_div]
  congr 1
  ring

lemma cos_zenith_mem {altitude : ℝ} (h0 : 0 ≤ altitude) (h90 : altitude ≤ 90) :
    0 ≤ Real.cos ((90 - altitude) * Real.pi / 180) ∧
      Real.cos ((90 - altitude) * Real.pi / 180) ≤ 1 := by
  refine ⟨Real.cos_nonneg_of_mem_Icc ?_, Real.cos_le_one _⟩
  rw [Set.mem_Icc]
  constructor
  · nlinarith [Real.pi_pos]
  · nlinarith [Real.pi_pos]

lemma computePixelHillshadeFast_range (grid : RGrid) (x y : ℤ)
    (gradientScale sunX sunY sunZ flatIllumination : ℝ)
    (hflat : 0 ≤ flatIllumination ∧ flatIllumination ≤ 255) :
    0 ≤ computePixelHillshadeFast grid x y gradientScale sunX sunY sunZ
        flatIllumination ∧
      computePixelHillshadeFast grid x y gradientScale sunX sunY sunZ
        flatIllumination ≤ 255 := by
  simp only [computePixelHillshadeFast]
  split_ifs with h1 h2 h3
  · exact hflat
  · norm_num
  · norm_num
  · push_neg at h2 h3
    constructor <;> linarith

lemma computePixelHillshadeFast_const (grid : RGrid) (x y : ℤ)
    (gradientScale sunX sunY sunZ flatIllumination : ℝ)
    (hconst : ∀ i, grid.data i = grid.data 0) :
    computePixelHillshadeFast grid x y gradientScale sunX sunY sunZ
      flatIllumination = flatIllumination := by
  have hget : ∀ u v : ℤ, rGridGet grid u v = grid.data 0 := fun u v => hconst _
  simp only [computePixelHillshadeFast, hget]
  rw [show (grid.data 0 + 2 * grid.data 0 + grid.data 0 -
      (grid.data 0 + 2 * grid.data 0 + grid.data 0)) * gradientScale = 0 from by ring]
  rw [if_pos (by norm_num [FLAT_THRESHOLD_SQ])]

lemma hillshadeFast_flat (data : ℕ → ℝ) (width height : ℕ)
    (cellSize altitude azimuth : ℝ) (hconst : ∀ i, data i = data 0) (idx : ℕ) :
    (hillshadeFast data width height cellSize altitude azimuth).data idx =
      255 * Real.cos ((90 - altitude) * Real.pi / 180) := by
  simp only [hillshadeFast]
  exact computePixelHillshadeFast_const ⟨data, width, height⟩ _ _ _ _ _ _ _ hconst

set_option linter.unusedVariables false in
/-- C2 (amended): every hillshade output value lies in `[0, 255]`, and on a
grid whose values are all equal every output value equals the unrounded flat
illumination `255·cos(zenith)` with `zenith = (90 − altitude)·π/180`; the
source returns this value without rounding (rounding happens only in later
raster conversion). -/
theorem hillshade_range_and_flat (data : ℕ → ℝ) (width height : ℕ)
    (cellSize altitude azimuth : ℝ)
    (halt : 0 ≤ altitude ∧ altitude ≤ 90) (haz : 0 ≤ azimuth ∧ azimuth ≤ 360)
    (idx : ℕ) :
    (0 ≤ (hillshadeFast data width height cellSize altitude azimuth).data idx ∧
      (hillshadeFast data width height cellSize altitude azimuth).data idx ≤ 255) ∧
    ((∀ i, data i = data 0) →
      (hillshadeFast data width height cellSize altitude azimuth).data idx =
        255 * Real.cos ((90 - altitude) * Real.pi / 180)) := by
  constructor
  · have hcz := cos_zenith_mem halt.1 halt.2
    simp only [hillshadeFast]
    refine computePixelHillshadeFast_range _ _ _ _ _ _ _ _ ⟨?_, ?_⟩
    · nlinarith [hcz.1]
    · nlinarith [hcz.2]
  · intro hconst
    exact hillshadeFast_flat data width height cellSize altitude azimuth hconst idx

/-- C2 witness: the flat 3x3 grid at the default sun position. -/
theorem hillshade_range_and_flat_witness :
    (0 ≤ (hillshadeFast (fun _ => (0 : ℝ)) 3 3 1 45 315).data 0 ∧
      (hillshadeFast (fun _ => (0 : ℝ)) 3 3 1 45 315).data 0 ≤ 255) ∧
    (hillshadeFast (fun _ => (0 : ℝ)) 3 3 1 45 315).data 0 =
      255 * Real.cos ((90 - 45) * Real.pi / 180) :=
  ⟨(hillshade_range_and_flat (fun _ => 0) 3 3 1 45 315
      ⟨by norm_num, by norm_num⟩ ⟨by norm_num, by norm_num⟩ 0).1,
   (hillshade_range_and_flat (fun _ => 0) 3 3 1 45 315
      ⟨by norm_num, by norm_num⟩ ⟨by norm_num, by norm_num⟩ 0).2 (fun i => rfl)⟩

/-- C2 counterexample: on an all-equal grid with altitude 45 the returned
value is `255·cos(π/4) = 255·√2/2 ≈ 180.31`, which is not the integer
`round(255·cos(zenith)) = 180` the claim asserts. -/
theorem hillshade_flat_value_not_rounded :
    (hillshadeFast (fun _ => (0 : ℝ)) 3 3 1 45 315).data 0 ≠
      ((round (255 * Real.cos ((90 - 45) * Real.pi / 180)) : ℤ) : ℝ) := by
  have hval : (hillshadeFast (fun _ => (0 : ℝ)) 3 3 1 45 315).data 0 =
      255 * Real.cos ((90 - 45) * Real.pi / 180) :=
    hillshadeFast_flat (fun _ => 0) 3 3 1 45 315 (fun i => rfl) 0
  have hang : ((90 : ℝ) - 45) * Real.pi / 180 = Real.pi / 4 := by ring
  have hcos : Real.cos (((90 : ℝ) - 45) * Real.pi / 180) = Real.sqrt 2 / 2 := by
    rw [hang, Real.cos_pi_div_four]
  have hs2 : Real.sqrt 2 ^ 2 = 2 := Real.sq_sqrt (by norm_num)
  have hs2pos : 0 < Real.sqrt 2 := Real.sqrt_pos.mpr (by norm_num)
  have hlb : (1.414 : ℝ) < Real.sqrt 2 := by nlinarith
  have hub : Real.sqrt 2 < 1.415 := by nlinarith
  have hround : round (255 * Real.cos (((90 : ℝ) - 45) * Real.pi / 180)) = 180 := by
    rw [hcos, round_eq, Int.floor_eq_iff]
    constructor
    · push_cast
      nlinarith
    · push_cast
      nlinarith
  rw [hval, hround]
  intro heq
  rw [hcos] at heq
  push_cast at heq
  nlinarith

lemma computePixelHillshade_const (grid : RGrid) (x y : ℤ)
    (cellSize azimuthRad cosZenith sinZenith : ℝ)
    (hconst : ∀ i, grid.data i = grid.data 0) :
    computePixelHillshade grid x y cellSize azimuthRad cosZenith sinZenith =
      max 0 (min 255 (255 * cosZenith)) := by
  have hget : ∀ u v : ℤ, rGridGet grid u v = grid.data 0 := fun u v => hconst _
  simp only [computePixelHillshade, hget]
  rw [show grid.data 0 + 2 * grid.data 0 + grid.data 0 -
      (grid.data 0 + 2 * grid.data 0 + grid.data 0) = 0 from by ring]
  rw [zero_div, neg_zero]
  rw [show (0 : ℝ) * 0 + 0 * 0 = 0 from by norm_num]
  rw [Real.sqrt_zero, Real.arctan_zero]
  rw [show jsAtan2 0 0 = 0 from by norm_num [jsAtan2]]
  rw [if_neg (lt_irrefl 0)]
  rw [Real.cos_zero, Real.sin_zero]
  ring_nf

/-- C9 (amended): the optimized dot-product implementation and the
slope/aspect implementation agree at every pixel of a grid whose values are
all equal (both return the flat illumination `255·cos(zenith)`); on sloped
terrain they differ in general, because the fast version uses the sun vector
component `+sin(zenith)·sin(azimuthRad)` along y where agreement with the
slope/aspect formula would require its negation. -/
theorem hillshade_fast_slow_agree_flat (data : ℕ → ℝ) (width height : ℕ)
    (cellSize altitude azimuth : ℝ)
    (halt : 0 ≤ altitude ∧ altitude ≤ 90) (hconst : ∀ i, data i = data 0)
    (idx : ℕ) :
    (hillshadeFast data width height cellSize altitude azimuth).data idx =
      (hillshadeSlow data width height cellSize altitude azimuth).data idx := by
  rw [hillshadeFast_flat data width height cellSize altitude azimuth hconst idx]
  have hslow : (hillshadeSlow data width height cellSize altitude azimuth).data idx =
      max 0 (min 255 (255 * Real.cos ((90 - altitude) * Real.pi / 180))) := by
    simp only [hillshadeSlow]
    exact computePixelHillshade_const ⟨data, width, height⟩ _ _ _ _ _ _ hconst
  rw [hslow]
  have hcz := cos_zenith_mem halt.1 halt.2
  rw [min_eq_right (by nlinarith [hcz.2]), max_eq_right (by nlinarith [hcz.1])]

/-- C9 witness: a constant 3x3 grid at the default sun position. -/
theorem hillshade_fast_slow_agree_flat_witness :
    (hillshadeFast (fun _ => (7 : ℝ)) 3 3 1 45 315).data 4 =
      (hillshadeSlow (fun _ => (7 : ℝ)) 3 3 1 45 315).data 4 :=
  hillshade_fast_slow_agree_flat (fun _ => 7) 3 3 1 45 315
    ⟨by norm_num, by norm_num⟩ (fun i => rfl) 4

/-- A 1-wide, 2-tall elevation column: 0 on the top row, 8 on the bottom row.
Pixel (0,0) then has Sobel gradients `dzdx = 0`, `dzdy = 4` at cell size 1. -/
def demC9 : ℕ → ℝ := fun i => if i = 0 then 0 else 8

lemma demC9_get (u v : ℤ) :
    rGridGet ⟨demC9, 1, 2⟩ u v = demC9 (max 0 (min 1 v)).toNat := by
  simp only [rGridGet]
  congr 1
  omega

lemma demC9_row_neg (u : ℤ) : rGridGet ⟨demC9, 1, 2⟩ u (-1) = 0 := by
  rw [demC9_get, show (max 0 (min 1 (-1 : ℤ))).toNat = 0 from by decide]
  simp [demC9]

lemma demC9_row_zero (u : ℤ) : rGridGet ⟨demC9, 1, 2⟩ u 0 = 0 := by
  rw [demC9_get, show (max 0 (min 1 (0:ℤ))).toNat = 0 from by decide]
  simp [demC9]

lemma demC9_row_one (u : ℤ) : rGridGet ⟨demC9, 1, 2⟩ u 1 = 8 := by
  rw [demC9_get, show (max 0 (min 1 (1 : ℤ))).toNat = 1 from by decide]
  simp [demC9]

/-- C9 counterexample: on the sloped column `demC9` with cell size 1,
altitude 0 and azimuth 0, the dot-product implementation clamps pixel (0,0)
to 0 while the slope/aspect implementation returns the strictly positive
value `255·sin(arctan 4)`; the two hillshade implementations disagree. -/
theorem hillshade_fast_slow_differ :
    (hillshadeFast demC9 1 2 1 0 0).data 0 ≠ (hillshadeSlow demC9 1 2 1 0 0).data 0 := by
  have hfast : (hillshadeFast demC9 1 2 1 0 0).data 0 = 0 := by
    simp only [hillshadeFast, computePixelHillshadeFast]
    norm_num [demC9_row_neg, demC9_row_zero, demC9_row_one]
    rw [show ((90:ℝ)) * Real.pi / 180 = Real.pi / 2 from by ring,
        show ((450:ℝ)) * Real.pi / 180 = Real.pi / 2 + 2 * Real.pi from by ring,
        Real.sin_add_two_pi, Real.sin_pi_div_two, Real.cos_pi_div_two]
    have h17 : (0:ℝ) < Real.sqrt 17 := Real.sqrt_pos.mpr (by norm_num)
    rw [if_neg (by norm_num [FLAT_THRESHOLD_SQ])]
    rw [if_pos (mul_neg_of_pos_of_neg (by norm_num)
      (div_neg_of_neg_of_pos (by norm_num) h17))]
  have hslow : 0 < (hillshadeSlow demC9 1 2 1 0 0).data 0 := by
    simp only [hillshadeSlow, computePixelHillshade]
    norm_num [demC9_row_neg, demC9_row_zero, demC9_row_one]
    rw [show jsAtan2 4 0 = Real.pi / 2 from by norm_num [jsAtan2]]
    rw [if_neg (not_lt.mpr (le_of_lt (by positivity)))]
    rw [show (450:ℝ) * Real.pi / 180 - Real.pi / 2 = 2 * Real.pi from by ring,
        Real.cos_two_pi]
    rw [show ((90:ℝ)) * Real.pi / 180 = Real.pi / 2 from by ring,
        Real.cos_pi_div_two, Real.sin_pi_div_two]
    have hs : 0 < Real.sin (Real.arctan (Real.sqrt 16)) := by
      apply Real.sin_pos_of_pos_of_lt_pi
      · have h0 : (0:ℝ) < Real.sqrt 16 := Real.sqrt_pos.mpr (by norm_num)
        have harc := Real.arctan_strictMono h0
        rwa [Real.arctan_zero] at harc
      · exact lt_trans (Real.arctan_lt_pi_div_two _) (by nlinarith [Real.pi_pos])
    nlinarith [hs]
  rw [hfast]
  exact ne_of_lt hslow

/-- Decoded RGBA pixel data of one source tile (`interface TilePixels`);
`data` is the flat byte array as a total function. -/
structure TilePixels where
  data : ℕ → ℕ
  width : ℕ
  height : ℕ

/-- `terrariumToElevation` from the tile fetcher. -/
def terrariumToElevation (r g b : ℕ) : ℚ :=
  (r : ℚ) * 256 + (g : ℚ) + (b : ℚ) / 256 - 32768

/-- The fetch-and-decode capability behind `fetchTilePixels`: for each tile
coordinate either the decoded RGBA pixels or `null` (HTTP failure). -/
abbrev FetchOracle := ℕ → ℤ → ℤ → Option TilePixels

/-- `fetchTilePixels` from the tile fetcher: out-of-range coordinates yield
`null` without consulting the network. -/
def fetchTilePixels (oracle : FetchOracle) (z : ℕ) (x y : ℤ) : Option TilePixels :=
  let maxTile : ℤ := 2 ^ z
  if x < 0 ∨ maxTile ≤ x ∨ y < 0 ∨ maxTile ≤ y then none
  else oracle z x y

/-- One write step of the pixel-copy loop in `copyTileToCanvas`: the four
byte stores of iteration `(ty, tx)`. -/
def writePixel (tile : TilePixels) (canvasSize offsetX offsetY : ℕ)
    (canvas : ℕ → ℕ) (p : ℕ × ℕ) : ℕ → ℕ :=
  let srcIdx := (p.1 * tile.width + p.2) * 4
  let dstIdx := ((offsetY + p.1) * canvasSize + (offsetX + p.2)) * 4
  fun idx =>
    if idx = dstIdx then tile.data srcIdx
    else if idx = dstIdx + 1 then tile.data (srcIdx + 1)
    else if idx = dstIdx + 2 then tile.data (srcIdx + 2)
    else if idx = dstIdx + 3 then tile.data (srcIdx + 3)
    else canvas idx

/-- The row-major iteration order of the loops in `copyTileToCanvas`. -/
def tileIterationOrder (tile : TilePixels) : List (ℕ × ℕ) :=
  (List.range tile.height).flatMap fun ty =>
    (List.range tile.width).map fun tx => (ty, tx)

/-- `copyTileToCanvas` from the tile fetcher: a missing tile is skipped. -/
def copyTileToCanvas (tile : Option TilePixels) (canvas : ℕ → ℕ)
    (canvasSize offsetX offsetY : ℕ) : ℕ → ℕ :=
  match tile with
  | none => canvas
  | some t => (tileIterationOrder t).foldl (writePixel t canvasSize offsetX offsetY) canvas

/-- The record returned by `fetch3x3Neighborhood`. -/
structure Tiles3x3 where
  center : Option TilePixels
  left : Option TilePixels
  right : Option TilePixels
  top : Option TilePixels
  bottom : Option TilePixels
  topLeft : Option TilePixels
  topRight : Option TilePixels
  bottomLeft : Option TilePixels
  bottomRight : Option TilePixels

/-- `fetch3x3Neighborhood` from the tile fetcher (the batching is pure I/O
scheduling; the resulting record is the same). -/
def fetch3x3Neighborhood (oracle : FetchOracle) (z : ℕ) (x y : ℤ) : Tiles3x3 where
  center := fetchTilePixels oracle z x y
  left := fetchTilePixels oracle z (x - 1) y
  right := fetchTilePixels oracle z (x + 1) y
  top := fetchTilePixels oracle z x (y - 1)
  bottom := fetchTilePixels oracle z x (y + 1)
  topLeft := fetchTilePixels oracle z (x - 1) (y - 1)
  topRight := fetchTilePixels oracle z (x + 1) (y - 1)
  bottomLeft := fetchTilePixels oracle z (x - 1) (y + 1)
  bottomRight := fetchTilePixels oracle z (x + 1) (y + 1)

/-- `stitchTiles` from the tile fetcher: nine copies onto a zero-initialized
`3s x 3s` canvas, in source order. -/
def stitchTiles (tiles : Tiles3x3) (s : ℕ) : (ℕ → ℕ) × ℕ :=
  let stitchedSize := s * 3
  let c0 : ℕ → ℕ := fun _ => 0
  let c1 := copyTileToCanvas tiles.topLeft c0 stitchedSize 0 0
  let c2 := copyTileToCanvas tiles.top c1 stitchedSize s 0
  let c3 := copyTileToCanvas tiles.topRight c2 stitchedSize (2 * s) 0
  let c4 := copyTileToCanvas tiles.left c3 stitchedSize 0 s
  let c5 := copyTileToCanvas tiles.center c4 stitchedSize s s
  let c6 := copyTileToCanvas tiles.right c5 stitchedSize (2 * s) s
  let c7 := copyTileToCanvas tiles.bottomLeft c6 stitchedSize 0 (2 * s)
  let c8 := copyTileToCanvas tiles.bottom c7 stitchedSize s (2 * s)
  let c9 := copyTileToCanvas tiles.bottomRight c8 stitchedSize (2 * s) (2 * s)
  (c9, stitchedSize)

/-- `BufferedGrid` from `types.ts`. -/
structure BufferedGrid where
  grid : ℕ → ℚ
  width : ℕ
  height : ℕ
  bufferPx : ℕ

/-- The clamped source coordinate computed in `sampleFromStitched`:
`s + floor((o - bufferPx + 0.5) * (s / 256))` clamped into `[0, stitchedSize)`.
`TILE_SIZE = 256` appears literally, as in the source. -/
def stitchedSrcCoord (s stitchedSize bufferPx : ℕ) (o : ℕ) : ℕ :=
  let tileC : ℤ := (o : ℤ) - (bufferPx : ℤ)
  let src0 : ℤ := (s : ℤ) + Rat.floor (((tileC : ℚ) + 1 / 2) * ((s : ℚ) / 256))
  (max 0 (min ((stitchedSize : ℤ) - 1) src0)).toNat

/-- `sampleFromStitched` from the tile fetcher. -/
def sampleFromStitched (stitched : (ℕ → ℕ) × ℕ) (s outputSize bufferPx : ℕ) :
    BufferedGrid where
  grid := fun i =>
    let ox := i % outputSize
    let oy := i / outputSize
    let srcX := stitchedSrcCoord s stitched.2 bufferPx ox
    let srcY := stitchedSrcCoord s stitched.2 bufferPx oy
    let srcIdx := (srcY * stitched.2 + srcX) * 4
    terrariumToElevation (stitched.1 srcIdx) (stitched.1 (srcIdx + 1))
      (stitched.1 (srcIdx + 2))
  width := outputSize
  height := outputSize
  bufferPx := bufferPx

/-- `sampleElevationGrid` from the tile fetcher (the no-buffer path). -/
def sampleElevationGrid (tile : TilePixels) (s outputSize bufferPx : ℕ) :
    BufferedGrid where
  grid := fun i =>
    let ox := i % outputSize
    let oy := i / outputSize
    let srcX := (max 0 (min ((tile.width : ℤ) - 1)
      (Rat.floor ((((ox : ℤ) - (bufferPx : ℤ) : ℤ) + 1 / 2 : ℚ) * ((s : ℚ) / 256))))).toNat
    let srcY := (max 0 (min ((tile.height : ℤ) - 1)
      (Rat.floor ((((oy : ℤ) - (bufferPx : ℤ) : ℤ) + 1 / 2 : ℚ) * ((s : ℚ) / 256))))).toNat
    let srcIdx := (srcY * tile.width + srcX) * 4
    terrariumToElevation (tile.data srcIdx) (tile.data (srcIdx + 1))
      (tile.data (srcIdx + 2))
  width := outputSize
  height := outputSize
  bufferPx := bufferPx

/-- `TileFetcher.fetchTile`: center failure is fatal, neighbors are optional;
`TILE_SIZE = 256`, `s` is the constructor's `sourceTileSize`. -/
def fetchTile (oracle : FetchOracle) (s : ℕ) (z : ℕ) (x y : ℤ) (bufferPx : ℕ) :
    Except String BufferedGrid :=
  let outputSize := 256 + 2 * bufferPx
  if bufferPx = 0 then
    match fetchTilePixels oracle z x y with
    | none => .error "failed to fetch tile"
    | some center => .ok (sampleElevationGrid center s outputSize bufferPx)
  else
    let tiles := fetch3x3Neighborhood oracle z x y
    match tiles.center with
    | none => .error "failed to fetch center tile"
    | some _ => .ok (sampleFromStitched (stitchTiles tiles s) s outputSize bufferPx)

/-- The eight neighbor slots of the 3x3 stitch. -/
inductive NeighborSlot
  | left | right | top | bottom | topLeft | topRight | bottomLeft | bottomRight
deriving Repr, DecidableEq

/-- Tile-coordinate delta of each neighbor slot. -/
def neighborDelta : NeighborSlot → ℤ × ℤ
  | .left => (-1, 0)
  | .right => (1, 0)
  | .top => (0, -1)
  | .bottom => (0, 1)
  | .topLeft => (-1, -1)
  | .topRight => (1, -1)
  | .bottomLeft => (-1, 1)
  | .bottomRight => (1, 1)

/-- Column/row block (in units of `s`) of each neighbor slot on the canvas;
the center occupies block (1, 1). -/
def neighborK : NeighborSlot → ℕ × ℕ
  | .left => (0, 1)
  | .right => (2, 1)
  | .top => (1, 0)
  | .bottom => (1, 2)
  | .topLeft => (0, 0)
  | .topRight => (2, 0)
  | .bottomLeft => (0, 2)
  | .bottomRight => (2, 2)

/-- The tile of the fetched neighborhood that sits in a slot. -/
def tileAt (tiles : Tiles3x3) : NeighborSlot → Option TilePixels
  | .left => tiles.left
  | .right => tiles.right
  | .top => tiles.top
  | .bottom => tiles.bottom
  | .topLeft => tiles.topLeft
  | .topRight => tiles.topRight
  | .bottomLeft => tiles.bottomLeft
  | .bottomRight => tiles.bottomRight

lemma foldl_writePixel_preserve (t : TilePixels) (cs oX oY idx : ℕ)
    (havoid : ∀ ty tx ch, ty < t.height → tx < t.width → ch < 4 →
      idx ≠ ((oY + ty) * cs + (oX + tx)) * 4 + ch) :
    ∀ (L : List (ℕ × ℕ)), (∀ p ∈ L, p.1 < t.height ∧ p.2 < t.width) →
      ∀ cv : ℕ → ℕ, (L.foldl (writePixel t cs oX oY) cv) idx = cv idx := by
  intro L
  induction L with
  | nil => intro _ cv; rfl
  | cons p L ih =>
    intro hL cv
    rw [List.foldl_cons, ih (fun q hq => hL q (List.mem_cons_of_mem _ hq))]
    obtain ⟨hty, htx⟩ := hL p (List.mem_cons_self p L)
    simp only [writePixel]
    rw [if_neg (by simpa using havoid p.1 p.2 0 hty htx (by norm_num)),
        if_neg (havoid p.1 p.2 1 hty htx (by norm_num)),
        if_neg (havoid p.1 p.2 2 hty htx (by norm_num)),
        if_neg (havoid p.1 p.2 3 hty htx (by norm_num))]

lemma mem_tileIterationOrder {t : TilePixels} {p : ℕ × ℕ}
    (hp : p ∈ tileIterationOrder t) : p.1 < t.height ∧ p.2 < t.width := by
  unfold tileIterationOrder at hp
  obtain ⟨ty, hty, hp'⟩ := List.mem_flatMap.mp hp
  obtain ⟨tx, htx, rfl⟩ := List.mem_map.mp hp'
  exact ⟨by simpa using hty, by simpa using htx⟩

lemma copyTileToCanvas_preserve (tile : Option TilePixels) (cv : ℕ → ℕ)
    (cs oX oY idx : ℕ)
    (havoid : ∀ t, tile = some t → ∀ ty tx ch, ty < t.height → tx < t.width →
      ch < 4 → idx ≠ ((oY + ty) * cs + (oX + tx)) * 4 + ch) :
    copyTileToCanvas tile cv cs oX oY idx = cv idx := by
  cases tile with
  | none => rfl
  | some t =>
    exact foldl_writePixel_preserve t cs oX oY idx (havoid t rfl)
      (tileIterationOrder t) (fun p hp => mem_tileIterationOrder hp) cv

lemma mul4_inj {a b c d : ℕ} (hb : b < 4) (hd : d < 4)
    (h : a * 4 + b = c * 4 + d) : a = c ∧ b = d := by omega

lemma rowMajor_inj {W a b c d : ℕ} (hb : b < W) (hd : d < W)
    (h : a * W + b = c * W + d) : a = c ∧ b = d := by
  have hac : a = c := by
    by_contra hne
    rcases Nat.lt_or_ge a c with hlt | hge
    · have e1 : (a + 1) * W = a * W + W := by ring
      have h3 : (a + 1) * W ≤ c * W := Nat.mul_le_mul_right W hlt
      have : a * W + b < c * W + d := by
        have h4 : a * W + W ≤ c * W := by rw [← e1]; exact h3
        linarith
      omega
    · have hlt : c < a := lt_of_le_of_ne hge (Ne.symm hne)
      have e1 : (c + 1) * W = c * W + W := by ring
      have h3 : (c + 1) * W ≤ a * W := Nat.mul_le_mul_right W hlt
      have : c * W + d < a * W + b := by
        have h4 : c * W + W ≤ a * W := by rw [← e1]; exact h3
        linarith
      omega
  subst hac
  exact ⟨rfl, by omega⟩

lemma blockCoord_eq {s k k' v t : ℕ} (h1 : k * s ≤ v) (h2 : v < k * s + s)
    (h3 : v = k' * s + t) (h4 : t < s) : k = k' := by
  have hs0 : 0 < s := by omega
  have ha : k * s < (k' + 1) * s := by
    have e : (k' + 1) * s = k' * s + s := by ring
    rw [e]
    omega
  have hb : k' * s < (k + 1) * s := by
    have e : (k + 1) * s = k * s + s := by ring
    rw [e]
    omega
  have h5 : k < k' + 1 := lt_of_mul_lt_mul_right ha (Nat.zero_le s)
  have h6 : k' < k + 1 := lt_of_mul_lt_mul_right hb (Nat.zero_le s)
  omega

lemma avoid_of_block_ne {s : ℕ} {kx ky kx' ky' : ℕ}
    (hkx : kx ≤ 2) (hkx' : kx' ≤ 2) (hne : (kx, ky) ≠ (kx', ky'))
    {sx sy ch : ℕ} (hch : ch < 4)
    (hx1 : kx * s ≤ sx) (hx2 : sx < kx * s + s)
    (hy1 : ky * s ≤ sy) (hy2 : sy < ky * s + s)
    {ty tx ch' : ℕ} (hty : ty < s) (htx : tx < s) (hch' : ch' < 4) :
    (sy * (s * 3) + sx) * 4 + ch ≠ ((ky' * s + ty) * (s * 3) + (kx' * s + tx)) * 4 + ch' := by
  intro h
  obtain ⟨hAB, -⟩ := mul4_inj hch hch' h
  have hkx2 : kx * s ≤ 2 * s := Nat.mul_le_mul_right s hkx
  have hkx2' : kx' * s ≤ 2 * s := Nat.mul_le_mul_right s hkx'
  have e3 : s * 3 = 2 * s + s := by ring
  have hsx3 : sx < s * 3 := by omega
  have htx3 : kx' * s + tx < s * 3 := by omega
  obtain ⟨hrow, hcol⟩ := rowMajor_inj hsx3 htx3 hAB
  exact hne (by rw [blockCoord_eq hx1 hx2 hcol htx, blockCoord_eq hy1 hy2 hrow hty])

/-- The nine copy layers of `stitchTiles`, in source order, each with its
canvas offset. -/
def stitchLayers (tiles : Tiles3x3) (s : ℕ) : List (Option TilePixels × ℕ × ℕ) :=
  [(tiles.topLeft, 0, 0), (tiles.top, s, 0), (tiles.topRight, 2 * s, 0),
   (tiles.left, 0, s), (tiles.center, s, s), (tiles.right, 2 * s, s),
   (tiles.bottomLeft, 0, 2 * s), (tiles.bottom, s, 2 * s),
   (tiles.bottomRight, 2 * s, 2 * s)]

lemma stitchTiles_eq_foldl (tiles : Tiles3x3) (s : ℕ) :
    (stitchTiles tiles s).1 = (stitchLayers tiles s).foldl
      (fun cv l => copyTileToCanvas l.1 cv (s * 3) l.2.1 l.2.2) (fun _ => 0) := rfl

lemma foldl_copy_preserve (cs : ℕ) :
    ∀ (layers : List (Option TilePixels × ℕ × ℕ)) (cv : ℕ → ℕ) (idx : ℕ),
      (∀ l ∈ layers, ∀ t, l.1 = some t → ∀ ty tx c, ty < t.height → tx < t.width →
        c < 4 → idx ≠ ((l.2.2 + ty) * cs + (l.2.1 + tx)) * 4 + c) →
      (layers.foldl (fun cv l => copyTileToCanvas l.1 cv cs l.2.1 l.2.2) cv) idx = cv idx := by
  intro layers
  induction layers with
  | nil => intro cv idx _; rfl
  | cons l layers ih =>
    intro cv idx h
    rw [List.foldl_cons, ih _ idx (fun q hq => h q (List.mem_cons_of_mem _ hq))]
    exact copyTileToCanvas_preserve l.1 cv cs l.2.1 l.2.2 idx
      (h l (List.mem_cons_self l layers))

lemma tileAt_fetch (oracle : FetchOracle) (z : ℕ) (x y : ℤ) (slot : NeighborSlot) :
    tileAt (fetch3x3Neighborhood oracle z x y) slot =
      fetchTilePixels oracle z (x + (neighborDelta slot).1)
        (y + (neighborDelta slot).2) := by
  cases slot <;> simp [tileAt, fetch3x3Neighborhood, neighborDelta, sub_eq_add_neg]

lemma neighborK_le (slot : NeighborSlot) :
    (neighborK slot).1 ≤ 2 ∧ (neighborK slot).2 ≤ 2 := by
  cases slot <;> exact ⟨by decide, by decide⟩

lemma neighborK_inj (a b : NeighborSlot) (h : neighborK a = neighborK b) :
    a = b := by
  revert h; cases a <;> cases b <;> decide

lemma neighborK_ne_center (slot : NeighborSlot) : neighborK slot ≠ (1, 1) := by
  cases slot <;> decide

lemma fetchTilePixels_dims {oracle : FetchOracle} {s : ℕ}
    (hdims : ∀ z' x' y' t, oracle z' x' y' = some t → t.width = s ∧ t.height = s) :
    ∀ z x y t, fetchTilePixels oracle z x y = some t → t.width = s ∧ t.height = s := by
  intro z x y t h
  simp only [fetchTilePixels] at h
  split at h
  · cases h
  · exact hdims z x y t h

/-- One slot layer with its dimensions from the oracle avoids every canvas
byte of a block belonging to the missing slot. -/
lemma layer_avoid_slot {oracle : FetchOracle} {s : ℕ} (z : ℕ) (x y : ℤ)
    (hdims : ∀ z' x' y' t, oracle z' x' y' = some t → t.width = s ∧ t.height = s)
    (slot : NeighborSlot)
    (hmiss : fetchTilePixels oracle z (x + (neighborDelta slot).1)
      (y + (neighborDelta slot).2) = none)
    {sx sy c0 : ℕ} (hc0 : c0 < 4)
    (hx1 : (neighborK slot).1 * s ≤ sx) (hx2 : sx < (neighborK slot).1 * s + s)
    (hy1 : (neighborK slot).2 * s ≤ sy) (hy2 : sy < (neighborK slot).2 * s + s)
    (slot' : NeighborSlot) :
    ∀ t, tileAt (fetch3x3Neighborhood oracle z x y) slot' = some t →
      ∀ ty tx c, ty < t.height → tx < t.width → c < 4 →
        (sy * (s * 3) + sx) * 4 + c0 ≠
          (((neighborK slot').2 * s + ty) * (s * 3) +
            ((neighborK slot').1 * s + tx)) * 4 + c := by
  intro t hsome ty tx c hty htx hc
  by_cases hEq : slot' = slot
  · subst hEq
    rw [tileAt_fetch, hmiss] at hsome
    cases hsome
  · rw [tileAt_fetch] at hsome
    obtain ⟨hw, hh⟩ := fetchTilePixels_dims hdims _ _ _ t hsome
    refine avoid_of_block_ne (neighborK_le slot).1 (neighborK_le slot').1
      ?_ hc0 hx1 hx2 hy1 hy2 (hh ▸ hty) (hw ▸ htx) hc
    intro hpair
    exact hEq (neighborK_inj slot' slot (by
      rw [show neighborK slot' = ((neighborK slot').1, (neighborK slot').2) from rfl,
          show neighborK slot = ((neighborK slot).1, (neighborK slot).2) from rfl]
      exact hpair.symm))

/-- The center layer likewise avoids every canvas byte of a block belonging
to a (necessarily distinct) neighbor slot. -/
lemma layer_avoid_center {oracle : FetchOracle} {s : ℕ} (z : ℕ) (x y : ℤ)
    (hdims : ∀ z' x' y' t, oracle z' x' y' = some t → t.width = s ∧ t.height = s)
    (slot : NeighborSlot)
    {sx sy c0 : ℕ} (hc0 : c0 < 4)
    (hx1 : (neighborK slot).1 * s ≤ sx) (hx2 : sx < (neighborK slot).1 * s + s)
    (hy1 : (neighborK slot).2 * s ≤ sy) (hy2 : sy < (neighborK slot).2 * s + s) :
    ∀ t, (fetch3x3Neighborhood oracle z x y).center = some t →
      ∀ ty tx c, ty < t.height → tx < t.width → c < 4 →
        (sy * (s * 3) + sx) * 4 + c0 ≠
          ((1 * s + ty) * (s * 3) + (1 * s + tx)) * 4 + c := by
  intro t hsome ty tx c hty htx hc
  obtain ⟨hw, hh⟩ := fetchTilePixels_dims hdims z x y t hsome
  refine avoid_of_block_ne (neighborK_le slot).1 (by norm_num)
    ?_ hc0 hx1 hx2 hy1 hy2 (hh ▸ hty) (hw ▸ htx) hc
  intro hpair
  exact neighborK_ne_center slot (by
    rw [show neighborK slot = ((neighborK slot).1, (neighborK slot).2) from rfl]
    exact hpair)

/-- A canvas byte inside the block of a missing neighbor slot is still 0
after all nine stitch copies. -/
lemma stitchTiles_zero_at_missing (oracle : FetchOracle) (s z : ℕ) (x y : ℤ)
    (hdims : ∀ z' x' y' t, oracle z' x' y' = some t → t.width = s ∧ t.height = s)
    (slot : NeighborSlot)
    (hmiss : fetchTilePixels oracle z (x + (neighborDelta slot).1)
      (y + (neighborDelta slot).2) = none)
    (sx sy c0 : ℕ) (hc0 : c0 < 4)
    (hx1 : (neighborK slot).1 * s ≤ sx) (hx2 : sx < (neighborK slot).1 * s + s)
    (hy1 : (neighborK slot).2 * s ≤ sy) (hy2 : sy < (neighborK slot).2 * s + s) :
    (stitchTiles (fetch3x3Neighborhood oracle z x y) s).1
      ((sy * (s * 3) + sx) * 4 + c0) = 0 := by
  rw [stitchTiles_eq_foldl]
  refine foldl_copy_preserve (s * 3) _ _ _ ?_
  intro l hl t hsome ty tx c hty htx hc
  simp only [stitchLayers, List.mem_cons, List.not_mem_nil, or_false] at hl
  rcases hl with rfl | rfl | rfl | rfl | rfl | rfl | rfl | rfl | rfl
  · simpa [neighborK] using layer_avoid_slot z x y hdims slot hmiss hc0
      hx1 hx2 hy1 hy2 NeighborSlot.topLeft t hsome ty tx c hty htx hc
  · simpa [neighborK] using layer_avoid_slot z x y hdims slot hmiss hc0
      hx1 hx2 hy1 hy2 NeighborSlot.top t hsome ty tx c hty htx hc
  · simpa [neighborK] using layer_avoid_slot z x y hdims slot hmiss hc0
      hx1 hx2 hy1 hy2 NeighborSlot.topRight t hsome ty tx c hty htx hc
  · simpa [neighborK] using layer_avoid_slot z x y hdims slot hmiss hc0
      hx1 hx2 hy1 hy2 NeighborSlot.left t hsome ty tx c hty htx hc
  · simpa using layer_avoid_center z x y hdims slot hc0
      hx1 hx2 hy1 hy2 t hsome ty tx c hty htx hc
  · simpa [neighborK] using layer_avoid_slot z x y hdims slot hmiss hc0
      hx1 hx2 hy1 hy2 NeighborSlot.right t hsome ty tx c hty htx hc
  · simpa [neighborK] using layer_avoid_slot z x y hdims slot hmiss hc0
      hx1 hx2 hy1 hy2 NeighborSlot.bottomLeft t hsome ty tx c hty htx hc
  · simpa [neighborK] using layer_avoid_slot z x y hdims slot hmiss hc0
      hx1 hx2 hy1 hy2 NeighborSlot.bottom t hsome ty tx c hty htx hc
  · simpa [neighborK] using layer_avoid_slot z x y hdims slot hmiss hc0
      hx1 hx2 hy1 hy2 NeighborSlot.bottomRight t hsome ty tx c hty htx hc

lemma sampleFromStitched_grid (st : (ℕ → ℕ) × ℕ) (s outputSize bufferPx ox oy : ℕ)
    (hox : ox < outputSize) :
    (sampleFromStitched st s outputSize bufferPx).grid (oy * outputSize + ox) =
      terrariumToElevation
        (st.1 ((stitchedSrcCoord s st.2 bufferPx oy * st.2 +
          stitchedSrcCoord s st.2 bufferPx ox) * 4))
        (st.1 ((stitchedSrcCoord s st.2 bufferPx oy * st.2 +
          stitchedSrcCoord s st.2 bufferPx ox) * 4 + 1))
        (st.1 ((stitchedSrcCoord s st.2 bufferPx oy * st.2 +
          stitchedSrcCoord s st.2 bufferPx ox) * 4 + 2)) := by
  have hos : 0 < outputSize := by omega
  have hmod : (oy * outputSize + ox) % outputSize = ox := by
    rw [Nat.mul_comm, Nat.mul_add_mod, Nat.mod_eq_of_lt hox]
  have hdiv : (oy * outputSize + ox) / outputSize = oy := by
    rw [Nat.mul_comm, Nat.mul_add_div hos, Nat.div_eq_of_lt hox, Nat.add_zero]
  simp only [sampleFromStitched, hmod, hdiv]

/-- C6: with a positive pixel buffer, `fetchTile` fails exactly when the
center tile cannot be fetched and decoded; a missing neighbor tile
(including out-of-range ones, for which `fetchTilePixels` returns `null`
without a network request) is not an error: the returned grid has size
`(256 + 2*bufferPx)^2` and, at every output pixel whose clamped source
coordinates land in the missing neighbor's block of the stitched canvas,
the value decodes the zero fill, `terrariumToElevation 0 0 0`. -/
theorem fetchTile_spec (oracle : FetchOracle) (s z : ℕ) (x y : ℤ)
    (bufferPx : ℕ) (hb : bufferPx ≠ 0)
    (hdims : ∀ z' x' y' t, oracle z' x' y' = some t →
      t.width = s ∧ t.height = s) :
    ((∃ e, fetchTile oracle s z x y bufferPx = Except.error e) ↔
        fetchTilePixels oracle z x y = none) ∧
    (∀ g, fetchTile oracle s z x y bufferPx = Except.ok g →
      g.width = 256 + 2 * bufferPx ∧ g.height = 256 + 2 * bufferPx ∧
      g.bufferPx = bufferPx ∧
      ∀ slot : NeighborSlot,
        fetchTilePixels oracle z (x + (neighborDelta slot).1)
          (y + (neighborDelta slot).2) = none →
        ∀ ox oy : ℕ, ox < 256 + 2 * bufferPx →
          (neighborK slot).1 * s ≤ stitchedSrcCoord s (s * 3) bufferPx ox →
          stitchedSrcCoord s (s * 3) bufferPx ox < (neighborK slot).1 * s + s →
          (neighborK slot).2 * s ≤ stitchedSrcCoord s (s * 3) bufferPx oy →
          stitchedSrcCoord s (s * 3) bufferPx oy < (neighborK slot).2 * s + s →
          g.grid (oy * (256 + 2 * bufferPx) + ox) =
            terrariumToElevation 0 0 0) := by
  have hft : fetchTile oracle s z x y bufferPx =
      match fetchTilePixels oracle z x y with
      | none => Except.error "failed to fetch center tile"
      | some _ => Except.ok (sampleFromStitched
          (stitchTiles (fetch3x3Neighborhood oracle z x y) s) s
          (256 + 2 * bufferPx) bufferPx) := by
    simp only [fetchTile, if_neg hb]
    rfl
  cases hcen : fetchTilePixels oracle z x y with
  | none =>
    rw [hcen] at hft
    refine ⟨⟨fun _ => rfl, fun _ => ⟨_, hft⟩⟩, ?_⟩
    intro g hg
    rw [hft] at hg
    cases hg
  | some c =>
    rw [hcen] at hft
    constructor
    · constructor
      · rintro ⟨e, he⟩
        rw [hft] at he
        cases he
      · intro h
        exact Option.noConfusion h
    · intro g hg
      rw [hft] at hg
      injection hg with hg
      subst hg
      refine ⟨rfl, rfl, rfl, ?_⟩
      intro slot hmiss ox oy hox hx1 hx2 hy1 hy2
      rw [sampleFromStitched_grid _ _ _ _ _ _ hox]
      have h2 : (stitchTiles (fetch3x3Neighborhood oracle z x y) s).2 = s * 3 := rfl
      rw [h2]
      have hz0 := stitchTiles_zero_at_missing oracle s z x y hdims slot hmiss
        (stitchedSrcCoord s (s * 3) bufferPx ox)
        (stitchedSrcCoord s (s * 3) bufferPx oy) 0 (by norm_num) hx1 hx2 hy1 hy2
      have hz1 := stitchTiles_zero_at_missing oracle s z x y hdims slot hmiss
        (stitchedSrcCoord s (s * 3) bufferPx ox)
        (stitchedSrcCoord s (s * 3) bufferPx oy) 1 (by norm_num) hx1 hx2 hy1 hy2
      have hz2 := stitchTiles_zero_at_missing oracle s z x y hdims slot hmiss
        (stitchedSrcCoord s (s * 3) bufferPx ox)
        (stitchedSrcCoord s (s * 3) bufferPx oy) 2 (by norm_num) hx1 hx2 hy1 hy2
      rw [Nat.add_zero] at hz0
      rw [hz0, hz1, hz2]

/-- A concrete oracle for the witness: only the center tile `(z, x, y) =
(1, 0, 0)` exists, a 2x2 tile; every other request fails. -/
def oracleC6 : FetchOracle := fun z' x' y' =>
  if z' = 1 ∧ x' = 0 ∧ y' = 0 then some ⟨fun _ => 7, 2, 2⟩ else none

/-- C6 witness: at `s = 2`, `bufferPx = 1`, tile `(1, 0, 0)`, the right
neighbor `(1, 1, 0)` is missing, yet `fetchTile` succeeds and the output
pixel `(257, 100)`, whose source coordinates land in the right neighbor's
block, decodes the zero fill. -/
theorem fetchTile_spec_witness :
    fetchTilePixels oracleC6 1 (0 + (neighborDelta NeighborSlot.right).1)
      (0 + (neighborDelta NeighborSlot.right).2) = none ∧
    (sampleFromStitched (stitchTiles (fetch3x3Neighborhood oracleC6 1 0 0) 2) 2
      (256 + 2 * 1) 1).grid (100 * (256 + 2 * 1) + 257) =
      terrariumToElevation 0 0 0 := by
  have hdimsC6 : ∀ z' x' y' t, oracleC6 z' x' y' = some t →
      t.width = 2 ∧ t.height = 2 := by
    intro z' x' y' t h
    simp only [oracleC6] at h
    split at h
    · injection h with h2
      rw [← h2]
      exact ⟨rfl, rfl⟩
    · cases h
  refine ⟨rfl, ?_⟩
  exact ((fetchTile_spec oracleC6 2 1 0 0 1 (by norm_num) hdimsC6).2
    (sampleFromStitched (stitchTiles (fetch3x3Neighborhood oracleC6 1 0 0) 2) 2
      (256 + 2 * 1) 1) rfl).2.2.2 NeighborSlot.right rfl 257 100
    (by norm_num) (by decide) (by decide) (by decide) (by decide)

end VEM
